import Mathlib

/-!
Verification development for the excel-to-quote repository's risk detection
and row normalization engine.

The TypeScript sources are shallowly embedded:

* JavaScript numbers are idealized as exact rationals plus the special
  values NaN, Infinity and -Infinity (the inductive `JsNum`).  None of the
  verified properties depends on binary floating-point rounding.
* JavaScript strings are Lean `String`s / `List Char`; the ASCII-only
  behaviour of `toUpperCase` / `toLowerCase` is embedded (`upChar`,
  `lowChar`), matching the data the application processes.
* The handful of regular expressions used by the detectors are embedded as
  explicit scanning functions over character lists (leftmost match, greedy
  sub-matches).  For every pattern of the source the alternatives tried in
  order have pairwise distinct viable first characters and every optional
  tail is followed only by tokens that cannot start where the optional
  part left off, so greedy committed matching coincides with the
  backtracking semantics of the JavaScript engine on these patterns.
* The nondeterministic `id` field of risk flags (built from `Date.now()`
  and `Math.random()`, used only as a React key) is omitted from the
  embedded `RiskFlag`; no other field is dropped.
* Array aliasing of the mutation tools is modelled by an explicit
  `inputAfter` component: the contents of the caller-supplied row array
  after the call.  Operations that rebind their local variable to a fresh
  array (`filter` / `map`) leave it equal to the input; the element
  assignment `currentRows[rowIndex] = ...` of `update_cell_value` writes
  through to the caller's array.
-/

/-! ## JavaScript value model -/

/-- Risk severity levels, `src/types/quote.ts` (`RiskLevel`). -/
inductive RiskLevel
  | low
  | medium
  | high
  | critical
  deriving DecidableEq, Repr

/-- Risk flag types, `src/types/quote.ts` (`RiskFlag.type`). -/
inductive RiskType
  | incoterms
  | liquidated_damages
  | uom_conflict
  | duplicate
  | missing_data
  | general
  deriving DecidableEq, Repr

/-- A JavaScript number, idealized: exact rationals plus NaN and the two
infinities.  Binary floating-point rounding is abstracted away. -/
inductive JsNum
  | nan
  | inf
  | negInf
  | num (q : ℚ)
  deriving DecidableEq, Repr

/-- JavaScript `x >= t` for a numeric threshold `t` (false on NaN). -/
def JsNum.ge (x : JsNum) (t : ℚ) : Bool :=
  match x with
  | .nan => false
  | .inf => true
  | .negInf => false
  | .num q => t ≤ q

/-- JavaScript `x > t` for a numeric threshold `t` (false on NaN). -/
def JsNum.gt (x : JsNum) (t : ℚ) : Bool :=
  match x with
  | .nan => false
  | .inf => true
  | .negInf => false
  | .num q => t < q

/-- JavaScript `Number.isInteger` (false on NaN and the infinities). -/
def JsNum.isInt (x : JsNum) : Bool :=
  match x with
  | .num q => q.den = 1
  | _ => false

/-- An untyped JavaScript cell value as it reaches the core: `null`,
`undefined`, a string or a number. -/
inductive JsVal
  | vNull
  | vUndef
  | vStr (s : String)
  | vNum (n : JsNum)
  deriving DecidableEq, Repr

/-! ## Character utilities (ASCII case mapping, whitespace, digits) -/

/-- JavaScript `\s` / `String.prototype.trim` whitespace (the characters
relevant to spreadsheet text; exotic Unicode spaces behave identically on
both sides of every statement below). -/
def isJsWs (c : Char) : Bool :=
  c = ' ' || c = '\t' || c = '\n' || c = '\r' ||
  c = (Char.ofNat 11) || c = (Char.ofNat 12) || c = (Char.ofNat 0xA0) ||
  c = (Char.ofNat 0x2028) || c = (Char.ofNat 0x2029) || c = (Char.ofNat 0xFEFF)

/-- ASCII uppercasing of one character, as JavaScript `toUpperCase` acts on
basic latin letters. -/
def upChar (c : Char) : Char :=
  if 97 ≤ c.toNat ∧ c.toNat ≤ 122 then Char.ofNat (c.toNat - 32) else c

/-- ASCII lowercasing of one character, as JavaScript `toLowerCase` acts on
basic latin letters. -/
def lowChar (c : Char) : Char :=
  if 65 ≤ c.toNat ∧ c.toNat ≤ 90 then Char.ofNat (c.toNat + 32) else c

theorem Char.toNat_ofNat_valid (n : Nat) (h : n < 55296) : (Char.ofNat n).toNat = n := by
  have hv : n.isValidChar := Or.inl (by omega)
  rw [Char.ofNat, dif_pos hv]
  rfl

theorem upChar_upChar (c : Char) : upChar (upChar c) = upChar c := by
  unfold upChar
  by_cases h : 97 ≤ c.toNat ∧ c.toNat ≤ 122
  · rw [if_pos h]
    have ht : (Char.ofNat (c.toNat - 32)).toNat = c.toNat - 32 :=
      Char.toNat_ofNat_valid _ (by omega)
    rw [if_neg (by omega)]
  · rw [if_neg h, if_neg h]

/-- JavaScript `String.prototype.toUpperCase` (ASCII). -/
def strUpper (s : String) : String := ⟨s.data.map upChar⟩

/-- JavaScript `String.prototype.toLowerCase` (ASCII). -/
def strLower (s : String) : String := ⟨s.data.map lowChar⟩

/-- Trailing-whitespace removal on character lists. -/
def rtrimChars (cs : List Char) : List Char :=
  ((cs.reverse).dropWhile isJsWs).reverse

/-- JavaScript `String.prototype.trim` on character lists. -/
def trimChars (cs : List Char) : List Char :=
  rtrimChars (cs.dropWhile isJsWs)

/-- JavaScript `String.prototype.trim`. -/
def strTrim (s : String) : String := ⟨trimChars s.data⟩

/-- Does `cs` start with the exact character sequence `p`? -/
def startsWithChars : List Char → List Char → Bool
  | [], _ => true
  | _ :: _, [] => false
  | p :: ps, c :: cs => p = c && startsWithChars ps cs

/-- JavaScript `String.prototype.includes` (case-sensitive substring test)
on character lists. -/
def hasSubChars (sub : List Char) : List Char → Bool
  | [] => startsWithChars sub []
  | c :: cs => startsWithChars sub (c :: cs) || hasSubChars sub cs

/-- JavaScript `String.prototype.includes`. -/
def strIncl (s sub : String) : Bool := hasSubChars sub.data s.data

/-! ## Number parsing and printing -/

/-- Numeric value of a list of decimal digits. -/
def digitsVal (ds : List Char) : Nat :=
  ds.foldl (fun a c => a * 10 + (c.toNat - 48)) 0

/-- JavaScript `parseFloat`: skip leading whitespace, optional sign, then
the longest prefix that is `Infinity` or a decimal literal with optional
fraction and exponent; `NaN` when no digits are found.
(`src/lib/excelParser.ts` calls it after stripping formatting.) -/
def parseFloat (s : String) : JsNum :=
  let cs0 := s.data.dropWhile isJsWs
  let neg : Bool := match cs0 with
    | '-' :: _ => true
    | _ => false
  let cs := match cs0 with
    | '-' :: t => t
    | '+' :: t => t
    | t => t
  if startsWithChars "Infinity".data cs then
    if neg then JsNum.negInf else JsNum.inf
  else
    let ip := cs.takeWhile Char.isDigit
    let cs1 := cs.drop ip.length
    let fp := match cs1 with
      | '.' :: t => t.takeWhile Char.isDigit
      | _ => []
    let cs2 := match cs1 with
      | '.' :: t => t.dropWhile Char.isDigit
      | t => t
    if ip.isEmpty && fp.isEmpty then JsNum.nan
    else
      let e : Int := match cs2 with
        | c :: t =>
          if c = 'e' ∨ c = 'E' then
            let es : Int := match t with
              | '-' :: _ => -1
              | _ => 1
            let t1 := match t with
              | '-' :: u => u
              | '+' :: u => u
              | u => u
            let ed := t1.takeWhile Char.isDigit
            if ed.isEmpty then 0 else es * (digitsVal ed : Int)
          else 0
        | [] => 0
      let mant : ℚ := (digitsVal ip : ℚ) + (digitsVal fp : ℚ) / (10 : ℚ) ^ fp.length
      let v : ℚ := mant * (10 : ℚ) ^ e
      JsNum.num (if neg then -v else v)

/-- Smallest exponent `k` with `d ∣ 10 ^ k`, when one exists. -/
def decExp (d : Nat) : Option Nat :=
  (List.range (d + 1)).find? fun k => 10 ^ k % d == 0

/-- Left-pad a digit string with zeros to the given length. -/
def padZeros (n : Nat) (s : List Char) : List Char :=
  List.replicate (n - s.length) '0' ++ s

/-- Strip trailing zero digits. -/
def stripZeros (s : List Char) : List Char :=
  ((s.reverse).dropWhile (· = '0')).reverse

/-- Canonical decimal rendering of a nonnegative rational with 10-smooth
denominator (the shortest JavaScript `Number.prototype.toString` output of
such values, idealized: no exponential notation for extreme magnitudes). -/
def qReprNN (q : ℚ) : String :=
  match decExp q.den with
  | some k =>
    let m := q.num.natAbs * (10 ^ k / q.den)
    let ds := padZeros (k + 1) (Nat.repr m).data
    let ipart := ds.take (ds.length - k)
    let fpart := stripZeros (ds.drop (ds.length - k))
    if fpart.isEmpty then ⟨ipart⟩ else ⟨ipart ++ '.' :: fpart⟩
  | none => Nat.repr q.num.natAbs ++ "/" ++ Nat.repr q.den

/-- JavaScript number-to-string conversion on the idealized `JsNum`. -/
def jsNumRepr (x : JsNum) : String :=
  match x with
  | .nan => "NaN"
  | .inf => "Infinity"
  | .negInf => "-Infinity"
  | .num q => if q < 0 then "-" ++ qReprNN (-q) else qReprNN q

/-- JavaScript `String(v)` on the embedded value type. -/
def jsValToString (v : JsVal) : String :=
  match v with
  | .vNull => "null"
  | .vUndef => "undefined"
  | .vStr s => s
  | .vNum n => jsNumRepr n

/-- Remove every character satisfying `p` (JavaScript
`replace(/[...]/g, '')`). -/
def stripAll (p : Char → Bool) (s : String) : String :=
  ⟨s.data.filter (fun c => !p c)⟩

/-- Normalize a quantity cell to a number, `src/lib/excelParser.ts`
(`parseQuantity`): absent for null/undefined/empty string, else strip
commas and whitespace, `parseFloat`, absent when the result is NaN. -/
def parseQuantity (value : JsVal) : Option JsNum :=
  if value = JsVal.vNull ∨ value = JsVal.vUndef ∨ value = JsVal.vStr "" then none
  else
    let strValue := stripAll (fun c => c = ',' || isJsWs c) (jsValToString value)
    match parseFloat strValue with
    | JsNum.nan => none
    | n => some n

/-- Normalize a price cell to a number, `src/lib/excelParser.ts`
(`parsePrice`): like `parseQuantity` but also stripping the currency
symbols and parentheses before parsing. -/
def parsePrice (value : JsVal) : Option JsNum :=
  if value = JsVal.vNull ∨ value = JsVal.vUndef ∨ value = JsVal.vStr "" then none
  else
    let s1 := stripAll
      (fun c => c = '$' || c = '€' || c = '£' || c = '¥' || c = '₩' || c = ',' || isJsWs c)
      (jsValToString value)
    let strValue := stripAll (fun c => c = '(' || c = ')') s1
    match parseFloat strValue with
    | JsNum.nan => none
    | n => some n

/-! ## Data model: parsed rows, risk flags, remediations -/

/-- A raw spreadsheet row: source column name to untyped cell value
(`Record<string, unknown>` from the codec). -/
def RawRow : Type := List (String × JsVal)

instance : DecidableEq RawRow := by
  unfold RawRow
  infer_instance

/-- The externally produced semantic column mapping,
`src/types/quote.ts` (`ColumnMapping`). -/
structure ColumnMapping where
  partNumber : Option String
  quantity : Option String
  description : Option String
  unitPrice : Option String
  unitOfMeasure : Option String
  notes : Option String
  terms : Option String
  headerRow : Nat
  deriving DecidableEq, Repr

/-- A normalized line item, `src/types/quote.ts` (`ParsedRow`). -/
structure ParsedRow where
  rowNumber : Nat
  partNumber : String
  quantity : Option JsNum
  description : String
  unitPrice : Option JsNum
  unitOfMeasure : String
  notes : String
  rawData : RawRow
  deriving DecidableEq

/-- A risk finding, `src/types/quote.ts` (`RiskFlag`).  The `id` field
(timestamp/random tag used only as a rendering key) is omitted as
nondeterministic; every behaviourally relevant field is kept. -/
structure RiskFlag where
  type : RiskType
  level : RiskLevel
  title : String
  description : String
  affectedRows : Option (List Nat)
  extractedValue : Option String
  recommendation : String
  deriving DecidableEq

/-- An audit entry for one mutation, `src/types/quote.ts`
(`RowRemediation`). -/
structure RowRemediation where
  rowNumber : Nat
  field : String
  oldValue : JsVal
  newValue : JsVal
  reason : String
  deriving DecidableEq, Repr

/-- An entry of the chat route's session-level `appliedRemediations` list
(`src/unnamed/part_000`). -/
structure SessionRem where
  rowNumber : Nat
  quantity : JsNum
  reason : String
  deriving DecidableEq, Repr

/-- The closed field selector shared by `update_cell_value` and
`clear_column` (`src/unnamed/part_000`, zod enum). -/
inductive RowField
  | quantity
  | unitPrice
  | description
  | notes
  | partNumber
  | unitOfMeasure
  deriving DecidableEq, Repr

/-- The literal field name string of a `RowField`. -/
def RowField.name : RowField → String
  | .quantity => "quantity"
  | .unitPrice => "unitPrice"
  | .description => "description"
  | .notes => "notes"
  | .partNumber => "partNumber"
  | .unitOfMeasure => "unitOfMeasure"

/-- JavaScript `row[field]` on a parsed row (numeric absence is `null`). -/
def fieldGet (r : ParsedRow) : RowField → JsVal
  | .quantity => match r.quantity with
    | none => JsVal.vNull
    | some n => JsVal.vNum n
  | .unitPrice => match r.unitPrice with
    | none => JsVal.vNull
    | some n => JsVal.vNum n
  | .description => JsVal.vStr r.description
  | .notes => JsVal.vStr r.notes
  | .partNumber => JsVal.vStr r.partNumber
  | .unitOfMeasure => JsVal.vStr r.unitOfMeasure

/-- The `row[field] !== null && row[field] !== ''` test of `clear_column`. -/
def fieldNonEmpty (r : ParsedRow) (f : RowField) : Bool :=
  match fieldGet r f with
  | JsVal.vNull => false
  | JsVal.vUndef => false
  | JsVal.vStr s => s ≠ ""
  | JsVal.vNum _ => true

/-- Reset one field: numeric fields to `null`, string fields to `""`
(`clear_column`'s spread update). -/
def fieldClear (r : ParsedRow) : RowField → ParsedRow
  | .quantity => { r with quantity := none }
  | .unitPrice => { r with unitPrice := none }
  | .description => { r with description := "" }
  | .notes => { r with notes := "" }
  | .partNumber => { r with partNumber := "" }
  | .unitOfMeasure => { r with unitOfMeasure := "" }

/-- Write one field with `update_cell_value`'s coercion: numeric fields via
`typeof newValue === 'number' ? newValue : parseFloat(String(newValue))`,
string fields via `String(newValue)`. -/
def fieldSetCoerced (r : ParsedRow) (f : RowField) (v : JsVal) : ParsedRow :=
  match f with
  | .quantity =>
    { r with quantity := some (match v with
        | JsVal.vNum n => n
        | w => parseFloat (jsValToString w)) }
  | .unitPrice =>
    { r with unitPrice := some (match v with
        | JsVal.vNum n => n
        | w => parseFloat (jsValToString w)) }
  | .description => { r with description := jsValToString v }
  | .notes => { r with notes := jsValToString v }
  | .partNumber => { r with partNumber := jsValToString v }
  | .unitOfMeasure => { r with unitOfMeasure := jsValToString v }

/-! ## Row mutation operations -/

/-- Rows with missing quantities, `src/lib/excelExport.ts`
(`findMissingQuantities`): quantity `null`, `undefined` or `=== 0`. -/
def findMissingQuantities (rows : List ParsedRow) : List Nat :=
  (rows.filter fun row =>
    row.quantity = none ∨ row.quantity = some (JsNum.num 0)).map (·.rowNumber)

/-- One entry of the `fixes` array built by `fix_missing_quantities`. -/
structure QtyFix where
  rowNumber : Nat
  quantity : ℚ
  reason : String
  deriving DecidableEq, Repr

/-- Apply quantity fixes, `src/lib/excelExport.ts` (`applyQuantityFixes`):
map over the rows, replacing the quantity of each row whose `rowNumber`
has a fix and recording one remediation (old value captured) per replaced
row, in row order. -/
def applyQuantityFixes (rows : List ParsedRow) (fixes : List QtyFix) :
    List ParsedRow × List RowRemediation :=
  let pairs := rows.map fun row =>
    match fixes.find? (fun f => f.rowNumber = row.rowNumber) with
    | some fix =>
      let rem : RowRemediation :=
        { rowNumber := row.rowNumber, field := "quantity",
          oldValue := fieldGet row RowField.quantity,
          newValue := JsVal.vNum (JsNum.num fix.quantity),
          reason := fix.reason }
      ({ row with quantity := some (JsNum.num fix.quantity) }, some rem)
    | none => (row, none)
  (pairs.map (·.1), pairs.filterMap (·.2))

/-- Result of the `fix_missing_quantities` tool (`src/unnamed/part_000`). -/
structure FixResult where
  success : Bool
  rows : List ParsedRow
  inputAfter : List ParsedRow
  fixedCount : Nat
  affectedRows : List Nat
  sessionRems : List SessionRem
  storeRems : List RowRemediation
  message : String
  deriving DecidableEq

/-- The `fix_missing_quantities` tool, `src/unnamed/part_000`: when
`affectedRowNumbers` is omitted, targets `findMissingQuantities`; builds
one fix per targeted row number, applies them with `applyQuantityFixes`,
and stores one remediation per fix with `oldValue: null`. -/
def fixMissingQuantities (rows : List ParsedRow) (defaultQuantity : ℚ)
    (affectedRowNumbers : Option (List Nat)) : FixResult :=
  let missingRows := affectedRowNumbers.getD (findMissingQuantities rows)
  let fixes := missingRows.map fun rowNum =>
    { rowNumber := rowNum, quantity := defaultQuantity,
      reason := "Auto-fixed: Set missing quantity to " ++ qReprNN defaultQuantity : QtyFix }
  let applied := applyQuantityFixes rows fixes
  { success := true,
    rows := applied.1,
    inputAfter := rows,
    fixedCount := applied.2.length,
    affectedRows := missingRows,
    sessionRems := fixes.map fun f =>
      { rowNumber := f.rowNumber, quantity := JsNum.num f.quantity, reason := f.reason },
    storeRems := fixes.map fun f =>
      { rowNumber := f.rowNumber, field := "quantity",
        oldValue := JsVal.vNull, newValue := JsVal.vNum (JsNum.num f.quantity),
        reason := f.reason },
    message := "Fixed " ++ Nat.repr applied.2.length ++
      " rows with missing quantities by setting them to " ++ qReprNN defaultQuantity ++ "." }

/-- Result of the `update_cell_value` tool (`src/unnamed/part_000`). -/
structure UpdateResult where
  success : Bool
  rows : List ParsedRow
  inputAfter : List ParsedRow
  sessionRems : List SessionRem
  message : String
  deriving DecidableEq

/-- In-place first-match replacement: `findIndex` on `rowNumber` followed
by the element assignment `currentRows[rowIndex] = ...`; `none` when no
row matches. -/
def replaceFirstRow (rowNumber : Nat) (f : ParsedRow → ParsedRow) :
    List ParsedRow → Option (List ParsedRow × ParsedRow)
  | [] => none
  | r :: rs =>
    if r.rowNumber = rowNumber then some (f r :: rs, r)
    else (replaceFirstRow rowNumber f rs).map fun (rs', old) => (r :: rs', old)

/-- The `update_cell_value` tool, `src/unnamed/part_000`: locate the row by
`rowNumber` (failure result when absent), coerce the new value by field
type, and write the replacement row object into the caller's array. -/
def updateCellValue (rows : List ParsedRow) (rowNumber : Nat) (field : RowField)
    (newValue : JsVal) : UpdateResult :=
  match replaceFirstRow rowNumber (fun r => fieldSetCoerced r field newValue) rows with
  | none =>
    { success := false, rows := rows, inputAfter := rows, sessionRems := [],
      message := "Row " ++ Nat.repr rowNumber ++ " not found in the data." }
  | some (rows', old) =>
    let oldValue := fieldGet old field
    let rem : SessionRem :=
      { rowNumber := rowNumber,
        quantity :=
          if field = RowField.quantity then
            (match newValue with
              | JsVal.vNum n => n
              | w => parseFloat (jsValToString w))
          else JsNum.num 0,
        reason := "Updated " ++ field.name ++ " from " ++ jsValToString oldValue ++
          " to " ++ jsValToString newValue }
    { success := true,
      rows := rows',
      inputAfter := rows',
      sessionRems := [rem],
      message := "Updated " ++ field.name ++ " in row " ++ Nat.repr rowNumber ++
        " from " ++ jsValToString oldValue ++ " to " ++ jsValToString newValue ++ "." }

/-- Result of the `delete_rows` tool (`src/unnamed/part_000`). -/
structure DeleteResult where
  success : Bool
  rows : List ParsedRow
  inputAfter : List ParsedRow
  deletedCount : Nat
  sessionRems : List SessionRem
  storeRems : List RowRemediation
  message : String
  deriving DecidableEq

/-- The `delete_rows` tool, `src/unnamed/part_000`: filter out every row
whose `rowNumber` is listed; one session and one store remediation per
requested number, found or not. -/
def deleteRows (rows : List ParsedRow) (rowNumbers : List Nat) : DeleteResult :=
  let rows' := rows.filter fun r => !(rowNumbers.contains r.rowNumber)
  { success := true,
    rows := rows',
    inputAfter := rows,
    deletedCount := rows.length - rows'.length,
    sessionRems := rowNumbers.map fun rowNum =>
      { rowNumber := rowNum, quantity := JsNum.num 0, reason := "Row deleted by user request" },
    storeRems := rowNumbers.map fun rn =>
      { rowNumber := rn, field := "quantity", oldValue := JsVal.vStr "ROW",
        newValue := JsVal.vStr "DELETED", reason := "Row deleted by user request" },
    message := "Deleted " ++ Nat.repr (rows.length - rows'.length) ++ " rows from the data." }

/-- Result of the `clear_column` tool (`src/unnamed/part_000`). -/
structure ClearResult where
  success : Bool
  rows : List ParsedRow
  inputAfter : List ParsedRow
  affectedCount : Nat
  sessionRems : List SessionRem
  storeRems : List RowRemediation
  message : String
  deriving DecidableEq

/-- The `clear_column` tool, `src/unnamed/part_000`: map over the rows,
resetting the field where it is non-null and non-empty; the session
remediation (row number 0, bulk scope) is appended only when at least one
row was affected, while the download store always receives one record. -/
def clearColumn (rows : List ParsedRow) (field : RowField) : ClearResult :=
  let rows' := rows.map fun row =>
    if fieldNonEmpty row field then fieldClear row field else row
  let affectedCount := rows.countP fun row => fieldNonEmpty row field
  let sessionRem : SessionRem :=
    { rowNumber := 0, quantity := JsNum.num 0, reason := "Cleared column: " ++ field.name }
  let storeRem : RowRemediation :=
    { rowNumber := 0, field := field.name, oldValue := JsVal.vStr "ALL",
      newValue := JsVal.vNull, reason := "Cleared column: " ++ field.name }
  { success := true,
    rows := rows',
    inputAfter := rows,
    affectedCount := affectedCount,
    sessionRems := if 0 < affectedCount then [sessionRem] else [],
    storeRems := [storeRem],
    message := "Cleared data in column '" ++ field.name ++ "' for " ++
      Nat.repr affectedCount ++ " rows." }

/-! ## Embedded pattern matching

The regular expressions of `src/lib/riskDetector.ts` are embedded as
scanning functions: a matcher consumes a character-list suffix and returns
the consumed characters together with the rest.  Alternatives are tried in
the source order and committed; quantifiers are greedy.  On the concrete
patterns below this coincides with the backtracking leftmost-match
semantics of the JavaScript engine (alternative branches have pairwise
incompatible prefixes and each greedy token is followed by a token that
cannot match where the greedy token stopped). -/

/-- A matcher at a fixed position: `some (consumed, rest)` on success. -/
def Matcher : Type := List Char → Option (List Char × List Char)

/-- Case-insensitive character comparison (JavaScript `i` flag, ASCII). -/
def ciEqChar (a b : Char) : Bool := upChar a = upChar b

/-- Match the empty pattern. -/
def mEps : Matcher := fun cs => some ([], cs)

/-- Sequencing of matchers. -/
def mSeq (a b : Matcher) : Matcher := fun cs =>
  (a cs).bind fun p1 =>
    (b p1.2).map fun p2 => (p1.1 ++ p2.1, p2.2)

/-- Ordered committed alternation. -/
def mAlts : List Matcher → Matcher
  | [] => fun _ => none
  | m :: ms => fun cs =>
    match m cs with
    | some r => some r
    | none => mAlts ms cs

/-- Greedy option: succeed with the sub-match if possible, else consume
nothing. -/
def mOpt (a : Matcher) : Matcher := fun cs =>
  match a cs with
  | some r => some r
  | none => some ([], cs)

/-- Case-insensitive literal word. -/
def mLitCIChars : List Char → Matcher
  | [], cs => some ([], cs)
  | _ :: _, [] => none
  | p :: ps, c :: cs =>
    if ciEqChar p c then
      (mLitCIChars ps cs).map fun r => (c :: r.1, r.2)
    else none

/-- Case-insensitive literal word from a string. -/
def mLitCI (w : String) : Matcher := mLitCIChars w.data

/-- Greedy one-or-more repetition of a character class. -/
def mClass1 (p : Char → Bool) : Matcher := fun cs =>
  let tk := cs.takeWhile p
  if tk.isEmpty then none else some (tk, cs.drop tk.length)

/-- Greedy zero-or-more repetition of a character class. -/
def mClass0 (p : Char → Bool) : Matcher := fun cs =>
  some (cs.takeWhile p, cs.drop (cs.takeWhile p).length)

/-- Optional single character from a class. -/
def mCharOpt (p : Char → Bool) : Matcher := fun cs =>
  match cs with
  | c :: rest => if p c then some ([c], rest) else some ([], cs)
  | [] => some ([], [])

/-- The `\s+` token. -/
def wsP : Matcher := mClass1 isJsWs

/-- The `\s*` token. -/
def wsS : Matcher := mClass0 isJsWs

/-- Leftmost match: try the matcher at every suffix, left to right, and
return the consumed characters of the first success. -/
def matchFirst (m : Matcher) : List Char → Option (List Char)
  | [] => (m []).map (·.1)
  | c :: cs =>
    match m (c :: cs) with
    | some r => some r.1
    | none => matchFirst m cs

/-- The numeric token `(\d+\.?\d*)`. -/
def numTok : Matcher :=
  mSeq (mClass1 Char.isDigit) (mSeq (mCharOpt (· = '.')) (mClass0 Char.isDigit))

/-! ### Liquidated-damages patterns (`detectLiquidatedDamages`) -/

/-- Pattern `/liquidated\s+damages/i`. -/
def ldPat1 : Matcher := mSeq (mLitCI "liquidated") (mSeq wsP (mLitCI "damages"))

/-- Pattern `/penalty\s+(for|of)?\s*(late|delay)/i`. -/
def ldPat2 : Matcher :=
  mSeq (mLitCI "penalty")
    (mSeq wsP (mSeq (mOpt (mAlts [mLitCI "for", mLitCI "of"]))
      (mSeq wsS (mAlts [mLitCI "late", mLitCI "delay"]))))

/-- Pattern `/delay\s+penalty/i`. -/
def ldPat3 : Matcher := mSeq (mLitCI "delay") (mSeq wsP (mLitCI "penalty"))

/-- Pattern `/(\d+\.?\d*)\s*%\s*(per|each)\s*(day|week)/i`. -/
def ldPat4 : Matcher :=
  mSeq numTok (mSeq wsS (mSeq (mLitCI "%")
    (mSeq wsS (mSeq (mAlts [mLitCI "per", mLitCI "each"])
      (mSeq wsS (mAlts [mLitCI "day", mLitCI "week"]))))))

/-- Pattern `/per\s*diem\s*penalty/i`. -/
def ldPat5 : Matcher :=
  mSeq (mLitCI "per") (mSeq wsS (mSeq (mLitCI "diem") (mSeq wsS (mLitCI "penalty"))))

/-- Pattern `/late\s+delivery\s+(penalty|charge|fee)/i`. -/
def ldPat6 : Matcher :=
  mSeq (mLitCI "late") (mSeq wsP (mSeq (mLitCI "delivery")
    (mSeq wsP (mAlts [mLitCI "penalty", mLitCI "charge", mLitCI "fee"]))))

/-- The ordered `ldPatterns` array of the source. -/
def ldPatterns : List Matcher := [ldPat1, ldPat2, ldPat3, ldPat4, ldPat5, ldPat6]

/-- At one position, match `(\d+\.?\d*)\s*%\s*(per|each)?\s*(day|week|month)?`
returning (capture group 1, whole match, rest). -/
def percentAt (cs : List Char) : Option (List Char × List Char × List Char) :=
  (numTok cs).bind fun p1 =>
    ((mSeq wsS (mSeq (mLitCI "%") (mSeq wsS (mSeq (mOpt (mAlts [mLitCI "per", mLitCI "each"]))
        (mSeq wsS (mOpt (mAlts [mLitCI "day", mLitCI "week", mLitCI "month"]))))))) p1.2).map
      fun p2 => (p1.1, p1.1 ++ p2.1, p2.2)

/-- Leftmost match of the percentage pattern: (group 1, whole match). -/
def percentFirst : List Char → Option (List Char × List Char)
  | [] => (percentAt []).map fun r => (r.1, r.2.1)
  | c :: cs =>
    match percentAt (c :: cs) with
    | some r => some (r.1, r.2.1)
    | none => percentFirst cs

/-- At one position, match the cap pattern
`(?:cap|maximum|max|up\s+to|not\s+(?:to\s+)?exceed)\s*(?:of\s*)?(\d+\.?\d*)\s*%`,
returning capture group 1 and the rest. -/
def capAt (cs : List Char) : Option (List Char × List Char) :=
  ((mAlts [mLitCI "cap", mLitCI "maximum", mLitCI "max",
      mSeq (mLitCI "up") (mSeq wsP (mLitCI "to")),
      mSeq (mLitCI "not") (mSeq wsP (mSeq (mOpt (mSeq (mLitCI "to") wsP)) (mLitCI "exceed")))]) cs).bind
    fun p1 =>
      ((mSeq wsS (mOpt (mSeq (mLitCI "of") wsS))) p1.2).bind fun p2 =>
        (numTok p2.2).bind fun p3 =>
          ((mSeq wsS (mLitCI "%")) p3.2).map fun p4 => (p3.1, p4.2)

/-- Leftmost match of the cap pattern: capture group 1. -/
def capFirst : List Char → Option (List Char)
  | [] => (capAt []).map (·.1)
  | c :: cs =>
    match capAt (c :: cs) with
    | some r => some r.1
    | none => capFirst cs

/-! ### The liquidated-damages detector -/

/-- Scan raw text for liquidated-damages clauses,
`src/lib/riskDetector.ts` (`detectLiquidatedDamages`): the first of the
six patterns that matches produces the single finding; severity comes from
the first percentage occurrence (1% and 0.5% bands, default high), and a
cap above 10% forces critical and annotates the title. -/
def detectLiquidatedDamages (rawText : String) : List RiskFlag :=
  let cs := rawText.data
  match ldPatterns.findSome? (fun p => matchFirst p cs) with
  | none => []
  | some m0 =>
    let pm := percentFirst cs
    let extractedValue := match pm with
      | some pr => pr.2
      | none => m0
    let level0 : RiskLevel := match pm with
      | some pr =>
        let percentage := parseFloat ⟨pr.1⟩
        if percentage.ge 1 then RiskLevel.critical
        else if percentage.ge (1/2) then RiskLevel.high
        else RiskLevel.medium
      | none => RiskLevel.high
    let cm := capFirst cs
    let capInfo : String := match cm with
      | some g1 => " (Capped at " ++ jsNumRepr (parseFloat ⟨g1⟩) ++ "%)"
      | none => ""
    let level : RiskLevel := match cm with
      | some g1 => if (parseFloat ⟨g1⟩).gt 10 then RiskLevel.critical else level0
      | none => level0
    [{ type := RiskType.liquidated_damages,
       level := level,
       title := "Liquidated Damages Clause Detected" ++ capInfo,
       description := "This document contains penalty clauses for late delivery. These can significantly impact profitability.",
       affectedRows := none,
       extractedValue := some ⟨extractedValue⟩,
       recommendation :=
         if level = RiskLevel.critical then
           "🚨 CRITICAL: High-risk LD clause detected. Escalate to Deal Desk before quoting. Consider risk premium pricing."
         else
           "⚠️ Review LD terms with legal/commercial team. Ensure delivery timeline is achievable with buffer." }]

/-! ### The Incoterms detector -/

/-- One entry of the static Incoterms reference table. -/
structure IncotermEntry where
  term : String
  riskLevel : RiskLevel
  descr : String
  deriving DecidableEq, Repr

/-- The static reference table `INCOTERMS_DATA` of `src/lib/schemas.ts`,
in object-literal (iteration) order. -/
def INCOTERMS_DATA : List IncotermEntry :=
  [⟨"EXW", RiskLevel.low, "Ex Works - Minimal seller responsibility"⟩,
   ⟨"FCA", RiskLevel.low, "Free Carrier - Seller delivers to carrier"⟩,
   ⟨"FAS", RiskLevel.medium, "Free Alongside Ship - Seller delivers alongside vessel"⟩,
   ⟨"FOB", RiskLevel.medium, "Free on Board - Seller loads onto vessel"⟩,
   ⟨"CFR", RiskLevel.medium, "Cost and Freight - Seller pays freight to destination"⟩,
   ⟨"CIF", RiskLevel.medium, "Cost, Insurance, Freight - Seller pays freight + insurance"⟩,
   ⟨"CPT", RiskLevel.medium, "Carriage Paid To - Seller pays carriage to destination"⟩,
   ⟨"CIP", RiskLevel.high, "Carriage and Insurance Paid - Seller pays carriage + insurance"⟩,
   ⟨"DAP", RiskLevel.high, "Delivered at Place - Seller delivers to named place"⟩,
   ⟨"DPU", RiskLevel.high, "Delivered at Place Unloaded - Seller unloads at destination"⟩,
   ⟨"DDP", RiskLevel.critical, "Delivered Duty Paid - Seller pays ALL costs including duties"⟩]

/-- Is the character a JavaScript regex word character (`\w`)? -/
def isWordChar (c : Char) : Bool := c.isAlphanum || c = '_'

/-- The trailing-context pattern of one Incoterm regex:
`\s*[\-–:]?\s*([A-Za-z\s,]+)?`. -/
def incoTail : Matcher :=
  mSeq wsS (mSeq (mCharOpt (fun c => c = '-' || c = '–' || c = ':'))
    (mSeq wsS (mOpt (mClass1 (fun c => c.isAlpha || isJsWs c || c = ',')))))

/-- The matcher for one Incoterm at a fixed position (the `\b` boundary is
handled by the scanner). -/
def incoTermAt (term : String) : Matcher := mSeq (mLitCI term) incoTail

/-- Scan for the leftmost match of `m` restricted to positions preceded by
a non-word character or the start of the text (the leading `\b` of the
Incoterm regexes; the pattern begins with a word character). -/
def scanBoundary (m : Matcher) : Option Char → List Char → Option (List Char)
  | prev, [] =>
    if (match prev with | none => true | some c => !isWordChar c) then (m []).map (·.1)
    else none
  | prev, c :: cs =>
    match (if (match prev with | none => true | some p => !isWordChar p) then
        (m (c :: cs)).map (·.1) else none) with
    | some r => some r
    | none => scanBoundary m (some c) cs

/-- The flag emitted for one detected Incoterm (the loop body of
`detectIncoterms`): severity from the table, first match trimmed as the
extracted value, recommendation branching on the severity tier. -/
def mkIncotermFlag (e : IncotermEntry) (matched : List Char) : RiskFlag :=
  { type := RiskType.incoterms,
    level := e.riskLevel,
    title := "Incoterm Detected: " ++ e.term,
    description := e.descr,
    affectedRows := none,
    extractedValue := some (strTrim ⟨matched⟩),
    recommendation :=
      if e.riskLevel = RiskLevel.critical ∨ e.riskLevel = RiskLevel.high then
        "⚠️ Review required. " ++ e.term ++
          " places significant responsibility on the seller. Ensure pricing includes all associated costs."
      else
        "Standard " ++ e.term ++
          " terms detected. Verify alignment with your standard commercial terms." }

/-- The flags emitted by the Incoterm reference-table loop of
`detectIncoterms` (before the implied-DDP check). -/
def incotermLoopFlags (rawText : String) : List RiskFlag :=
  let upper := rawText.data.map upChar
  INCOTERMS_DATA.bind fun e =>
    match scanBoundary (incoTermAt e.term) none upper with
    | none => []
    | some matched => [mkIncotermFlag e matched]

/-- Pattern `/delivered\s+duty\s+paid/i`. -/
def ddpPhrasePat : Matcher :=
  mSeq (mLitCI "delivered") (mSeq wsP (mSeq (mLitCI "duty") (mSeq wsP (mLitCI "paid"))))

/-- Does a flag's extracted value contain the substring `DDP`
(`r.extractedValue?.includes('DDP')`)? -/
def extractedHasDDP (r : RiskFlag) : Bool :=
  match r.extractedValue with
  | some v => strIncl v "DDP"
  | none => false

/-- The implied-DDP finding of `detectIncoterms`. -/
def ddpPhraseFlag : RiskFlag :=
  { type := RiskType.incoterms,
    level := RiskLevel.critical,
    title := "DDP-equivalent Terms Detected",
    description := "The phrase \"Delivered Duty Paid\" suggests the seller is responsible for all costs including import duties.",
    affectedRows := none,
    extractedValue := some "Delivered Duty Paid",
    recommendation := "🚨 CRITICAL: This implies DDP terms. Verify your quote includes import duties, taxes, and all delivery costs." }

/-- Scan raw text for Incoterms mentions, `src/lib/riskDetector.ts`
(`detectIncoterms`): one flag per reference-table code found at a word
boundary in the uppercased text, plus one implied-DDP finding when the
phrase occurs and no emitted flag's extracted value contains `DDP`. -/
def detectIncoterms (rawText : String) : List RiskFlag :=
  let flags := incotermLoopFlags rawText
  if (matchFirst ddpPhrasePat rawText.data).isSome ∧ ¬ flags.any extractedHasDDP then
    flags ++ [ddpPhraseFlag]
  else
    flags

/-! ### Row-based detectors -/

/-- Insert a row number into the insertion-ordered part-number grouping
(JavaScript `Map` iteration order). -/
def pnGroupsAdd (pn : String) (rn : Nat) :
    List (String × List Nat) → List (String × List Nat)
  | [] => [(pn, [rn])]
  | (k, v) :: rest =>
    if k = pn then (k, v ++ [rn]) :: rest else (k, v) :: pnGroupsAdd pn rn rest

/-- The part-number grouping of `detectDuplicates`: rows with empty or
whitespace-only part numbers are skipped; keys are trimmed and
uppercased. -/
def pnGroups (rows : List ParsedRow) : List (String × List Nat) :=
  rows.foldl
    (fun m row =>
      if row.partNumber ≠ "" ∧ strTrim row.partNumber ≠ "" then
        pnGroupsAdd (strUpper (strTrim row.partNumber)) row.rowNumber m
      else m)
    []

/-- Detect duplicate part numbers, `src/lib/riskDetector.ts`
(`detectDuplicates`): one medium finding per group of two or more rows
sharing a normalized part number. -/
def detectDuplicates (rows : List ParsedRow) : List RiskFlag :=
  (pnGroups rows).bind fun g =>
    if 1 < g.2.length then
      [{ type := RiskType.duplicate,
         level := RiskLevel.medium,
         title := "Duplicate Part Number: " ++ g.1,
         description := "Part number \"" ++ g.1 ++ "\" appears " ++
           Nat.repr g.2.length ++ " times in the document.",
         affectedRows := some g.2,
         extractedValue := some g.1,
         recommendation := "Consider consolidating duplicate line items to avoid over-ordering or pricing errors." }]
    else []

/-- Detect unit-of-measure conflicts, `src/lib/riskDetector.ts`
(`detectUoMConflicts`): per row with a unit of measure and a non-null
quantity, a medium finding for quantity above 10000 with a bulk unit and a
low finding for a fractional quantity with a discrete unit. -/
def detectUoMConflicts (rows : List ParsedRow) : List RiskFlag :=
  rows.bind fun row =>
    if row.unitOfMeasure = "" then []
    else
      let uom := strTrim (strLower row.unitOfMeasure)
      match row.quantity with
      | none => []
      | some q =>
        (if q.gt 10000 ∧ (["reel", "roll", "drum", "pallet"].any fun u => strIncl uom u) then
          [{ type := RiskType.uom_conflict,
             level := RiskLevel.medium,
             title := "Unusually High Quantity for UoM",
             description := "Row " ++ Nat.repr row.rowNumber ++ ": Quantity of " ++
               jsNumRepr q ++ " " ++ row.unitOfMeasure ++
               " seems unusual. Verify this is not a unit conversion error.",
             affectedRows := some [row.rowNumber],
             extractedValue := some (jsNumRepr q ++ " " ++ row.unitOfMeasure),
             recommendation := "Confirm with customer whether quantity is per unit or total. Check if UoM conversion is needed." }]
        else []) ++
        (if (¬ q.isInt) ∧ (["each", "ea", "pc", "pcs"].any fun u => strIncl uom u) then
          [{ type := RiskType.uom_conflict,
             level := RiskLevel.low,
             title := "Fractional Quantity for Discrete UoM",
             description := "Row " ++ Nat.repr row.rowNumber ++ ": Quantity " ++
               jsNumRepr q ++ " with UoM \"" ++ row.unitOfMeasure ++
               "\" - fractional quantities for discrete units may indicate data entry error.",
             affectedRows := some [row.rowNumber],
             extractedValue := some (jsNumRepr q ++ " " ++ row.unitOfMeasure),
             recommendation := "Verify quantity is correct. Round up if selling individual items." }]
        else [])

/-- Detect rows with missing critical data, `src/lib/riskDetector.ts`
(`detectMissingData`): one finding for missing part numbers (high above 5
rows, else medium) and one medium finding for missing quantities; only
null/undefined counts as a missing quantity here. -/
def detectMissingData (rows : List ParsedRow) : List RiskFlag :=
  let rowsWithMissingPN :=
    (rows.filter fun row => row.partNumber = "" ∨ strTrim row.partNumber = "").map (·.rowNumber)
  let rowsWithMissingQty :=
    (rows.filter fun row => row.quantity = none).map (·.rowNumber)
  (if 0 < rowsWithMissingPN.length then
    [{ type := RiskType.missing_data,
       level := if 5 < rowsWithMissingPN.length then RiskLevel.high else RiskLevel.medium,
       title := "Missing Part Numbers (" ++ Nat.repr rowsWithMissingPN.length ++ " rows)",
       description := Nat.repr rowsWithMissingPN.length ++
         " rows are missing part numbers. These items cannot be quoted without identification.",
       affectedRows := some (rowsWithMissingPN.take 10),
       extractedValue := none,
       recommendation := "Contact customer to provide missing part numbers before proceeding with quote." }]
  else []) ++
  (if 0 < rowsWithMissingQty.length then
    [{ type := RiskType.missing_data,
       level := RiskLevel.medium,
       title := "Missing Quantities (" ++ Nat.repr rowsWithMissingQty.length ++ " rows)",
       description := Nat.repr rowsWithMissingQty.length ++
         " rows are missing quantity information.",
       affectedRows := some (rowsWithMissingQty.take 10),
       extractedValue := none,
       recommendation := "Verify quantities with customer or assume quantity of 1 for each item." }]
  else [])

/-! ### The aggregator -/

/-- The `levelOrder` severity rank of `analyzeAllRisks`. -/
def levelRank : RiskLevel → Nat
  | RiskLevel.critical => 0
  | RiskLevel.high => 1
  | RiskLevel.medium => 2
  | RiskLevel.low => 3

/-- Comparator order on flags: at most the severity rank of the other.
With equal ranks the ECMAScript stable sort keeps emission order. -/
def riskLE (a b : RiskFlag) : Prop := levelRank a.level ≤ levelRank b.level

instance : DecidableRel riskLE := fun a b => by
  unfold riskLE
  infer_instance

instance : IsTotal RiskFlag riskLE :=
  ⟨fun a b => Nat.le_total (levelRank a.level) (levelRank b.level)⟩

instance : IsTrans RiskFlag riskLE :=
  ⟨fun _ _ _ h1 h2 => Nat.le_trans h1 h2⟩

/-- The concatenation of all detector outputs in source order (the array
literal inside `analyzeAllRisks`). -/
def detectorConcat (rawText : String) (rows : List ParsedRow) : List RiskFlag :=
  detectIncoterms rawText ++ detectLiquidatedDamages rawText ++
    detectDuplicates rows ++ detectUoMConflicts rows ++ detectMissingData rows

/-- Run all detectors and sort by severity, `src/lib/riskDetector.ts`
(`analyzeAllRisks`).  ECMAScript `Array.prototype.sort` is stable and the
comparator is consistent, so its result is the insertion sort by rank. -/
def analyzeAllRisks (rawText : String) (rows : List ParsedRow) : List RiskFlag :=
  (detectorConcat rawText rows).insertionSort riskLE

/-! ## The processing pipeline -/

/-- The derived summary counts, `src/types/quote.ts`
(`QuoteAnalysis.summary`). -/
structure RiskSummary where
  totalRows : Nat
  validRows : Nat
  totalRisks : Nat
  criticalRisks : Nat
  highRisks : Nat
  mediumRisks : Nat
  lowRisks : Nat
  deriving DecidableEq, Repr

/-- The analysis object returned by the pipeline (the behaviourally
relevant fields of `QuoteAnalysis`; `fileName` and `processedAt` are
environment-dependent strings). -/
structure AnalysisOut where
  success : Bool
  rows : List ParsedRow
  risks : List RiskFlag
  summary : RiskSummary
  deriving DecidableEq

/-- The source-level distinction of how one `processExcelFile` invocation
unfolds: no file supplied, codec failure, a thrown error caught by the
outer handler (for example the size limit), or a successfully decoded
workbook. -/
inductive PipelineCase
  | noFile
  | parseFailed (errMsg : String)
  | processFailed (errMsg : String)
  | parsed (rawRows : List RawRow) (rawText : String) (cm : ColumnMapping)

/-- JavaScript property access `row[key]` (`undefined` when absent). -/
def rawGet (row : RawRow) (key : String) : JsVal :=
  match row.find? (fun kv => kv.1 = key) with
  | some kv => kv.2
  | none => JsVal.vUndef

/-- Cell lookup through the mapping: `row[columnMapping.field || '']`. -/
def cellFor (row : RawRow) (key : Option String) : JsVal :=
  rawGet row (key.getD "")

/-- The `?? ''` coalescing before `String(...)` in the row materializer. -/
def coalesceEmpty (v : JsVal) : JsVal :=
  match v with
  | JsVal.vNull => JsVal.vStr ""
  | JsVal.vUndef => JsVal.vStr ""
  | w => w

/-- Materialize one parsed row from a raw row at zero-based index `i`
(`processExcelFile`, the `rowsToProcess.map` body). -/
def materializeRow (cm : ColumnMapping) (i : Nat) (row : RawRow) : ParsedRow :=
  { rowNumber := i + 2,
    partNumber := jsValToString (coalesceEmpty (cellFor row cm.partNumber)),
    quantity := parseQuantity (cellFor row cm.quantity),
    description := jsValToString (coalesceEmpty (cellFor row cm.description)),
    unitPrice := parsePrice (cellFor row cm.unitPrice),
    unitOfMeasure := jsValToString (coalesceEmpty (cellFor row cm.unitOfMeasure)),
    notes := jsValToString (coalesceEmpty (cellFor row cm.notes)),
    rawData := row }

/-- Index-passing map used to embed `Array.prototype.map`'s index
argument. -/
def mapWithIndex (f : Nat → RawRow → ParsedRow) : Nat → List RawRow → List ParsedRow
  | _, [] => []
  | i, r :: rs => f i r :: mapWithIndex f (i + 1) rs

/-- The truncation-warning finding unshifted when the row limit applied
(`processExcelFile`). -/
def truncFlag (totalRows maxRows : Nat) : RiskFlag :=
  { type := RiskType.general,
    level := RiskLevel.medium,
    title := "Row Limit Applied (" ++ Nat.repr maxRows ++ " rows)",
    description := "Only the first " ++ Nat.repr maxRows ++
      " rows were processed. Your file contains " ++ Nat.repr totalRows ++ " total rows.",
    affectedRows := none,
    extractedValue := none,
    recommendation := "For the demo, row processing is limited. Contact the developer for full access." }

/-- Summary computation of the success path (`processExcelFile`). -/
def mkSummary (rows : List ParsedRow) (risks : List RiskFlag) : RiskSummary :=
  { totalRows := rows.length,
    validRows := rows.countP fun r => r.partNumber ≠ "" ∧ strTrim r.partNumber ≠ "",
    totalRisks := risks.length,
    criticalRisks := risks.countP fun r => r.level = RiskLevel.critical,
    highRisks := risks.countP fun r => r.level = RiskLevel.high,
    mediumRisks := risks.countP fun r => r.level = RiskLevel.medium,
    lowRisks := risks.countP fun r => r.level = RiskLevel.low }

/-- The one-item critical risk list of the failure paths, with its literal
summary (`processExcelFile` error returns). -/
def errorAnalysis (title descr rec : String) : AnalysisOut :=
  let flag : RiskFlag :=
    { type := RiskType.general, level := RiskLevel.critical, title := title,
      description := descr, affectedRows := none, extractedValue := none,
      recommendation := rec }
  { success := false,
    rows := [],
    risks := [flag],
    summary := { totalRows := 0, validRows := 0, totalRisks := 1,
                 criticalRisks := 1, highRisks := 0, mediumRisks := 0, lowRisks := 0 } }

/-- The server action `processExcelFile` of
`src/app/actions/processExcel.ts`, with limit enforcement active
(`shouldEnforceLimit()` true) and the configured `LIMITS.MAX_ROWS` passed
as `maxRows`: truncate to the ceiling, materialize rows with
`rowNumber = index + 2`, run the detectors, unshift the truncation warning
when the limit applied, and derive the summary. -/
def processExcelFile (maxRows : Nat) : PipelineCase → AnalysisOut
  | PipelineCase.noFile =>
    errorAnalysis "No File Provided" "Please upload an Excel file to analyze."
      "Select a .xlsx, .xls, or .csv file to upload."
  | PipelineCase.parseFailed errMsg =>
    errorAnalysis "Parse Error"
      (if errMsg = "" then "Failed to parse Excel file." else errMsg)
      "Ensure the file is a valid Excel document (.xlsx, .xls) or CSV."
  | PipelineCase.processFailed errMsg =>
    errorAnalysis "Processing Error"
      (if errMsg = "" then "An unexpected error occurred." else errMsg)
      "Please try again or contact support if the issue persists."
  | PipelineCase.parsed rawRows rawText cm =>
    let rowsToProcess := rawRows.take maxRows
    let wasLimited := maxRows < rawRows.length
    let parsedRows := mapWithIndex (materializeRow cm) 0 rowsToProcess
    let risks0 := analyzeAllRisks rawText parsedRows
    let risks := if wasLimited then truncFlag rawRows.length maxRows :: risks0 else risks0
    { success := true,
      rows := parsedRows,
      risks := risks,
      summary := mkSummary parsedRows risks }

/-! ## Concrete rows used by counterexamples and witnesses -/

/-- A row with quantity 0 (present, not absent). -/
def rowQtyZero : ParsedRow :=
  { rowNumber := 2, partNumber := "A-1", quantity := some (JsNum.num 0),
    description := "zero qty", unitPrice := none, unitOfMeasure := "ea",
    notes := "", rawData := [] }

/-- A row with an absent quantity. -/
def rowQtyAbsent : ParsedRow :=
  { rowNumber := 3, partNumber := "B-2", quantity := none,
    description := "missing qty", unitPrice := none, unitOfMeasure := "ea",
    notes := "", rawData := [] }

/-- A row with an ordinary present quantity. -/
def rowQtyFive : ParsedRow :=
  { rowNumber := 4, partNumber := "C-3", quantity := some (JsNum.num 5),
    description := "ok", unitPrice := some (JsNum.num 2),
    unitOfMeasure := "box", notes := "n", rawData := [] }

/-- Modelled from the spec: the "standalone percentage-per-time-unit"
pattern named by claim C4 — a percentage followed by a mandatory per/each
and a mandatory day/week/month time unit.  (In the source the time-unit
groups of the severity regex are optional.) -/
def specPerTimeUnitPat : Matcher :=
  mSeq numTok (mSeq wsS (mSeq (mLitCI "%")
    (mSeq wsS (mSeq (mAlts [mLitCI "per", mLitCI "each"])
      (mSeq wsS (mAlts [mLitCI "day", mLitCI "week", mLitCI "month"]))))))

/-- The severity band set by the first percentage occurrence (time unit
optional): at least 1 percent critical, at least 0.5 percent high, any
smaller percentage medium, high when no percentage occurs. -/
def ldBandLevel (t : String) : RiskLevel :=
  match percentFirst t.data with
  | some pr =>
    if (parseFloat ⟨pr.1⟩).ge 1 then RiskLevel.critical
    else if (parseFloat ⟨pr.1⟩).ge (1/2) then RiskLevel.high
    else RiskLevel.medium
  | none => RiskLevel.high

/-- The final LD severity: a cap above 10 percent forces critical,
otherwise the percentage band decides. -/
def ldFinalLevel (t : String) : RiskLevel :=
  match capFirst t.data with
  | some g1 => if (parseFloat ⟨g1⟩).gt 10 then RiskLevel.critical else ldBandLevel t
  | none => ldBandLevel t

/-- The title annotation appended when a cap pattern occurs. -/
def ldCapSuffix (t : String) : String :=
  match capFirst t.data with
  | some g1 => " (Capped at " ++ jsNumRepr (parseFloat ⟨g1⟩) ++ "%)"
  | none => ""

/-- Concrete LD text used by the C4 witness. -/
def ldWitnessText : String := "liquidated damages of 2% per day"

/-- Concrete LD text used by the C4 counterexample: an LD phrase with a
bare percentage carrying no time unit. -/
def ldCounterText : String := "liquidated damages 0.2% deducted"

/-- Is a flag a critical finding whose extracted value mentions DDP? -/
def criticalDDP (f : RiskFlag) : Bool :=
  decide (f.level = RiskLevel.critical) && extractedHasDDP f

/-- The DDP entry of the reference table. -/
def ddpEntry : IncotermEntry :=
  ⟨"DDP", RiskLevel.critical, "Delivered Duty Paid - Seller pays ALL costs including duties"⟩

/-- Concrete text used by the C6 witness: the literal code DDP and the
spelled-out phrase together. -/
def c6Text : String := "Incoterms: DDP - Delivered Duty Paid"

/-! ## Theorems -/

unseal Rat.mul Rat.add Rat.inv in
/-- Concrete evaluation: parseQuantity strips the comma and parses 1234. -/
theorem parseQuantity_comma_concrete :
    parseQuantity (JsVal.vStr "1,234") = some (JsNum.num 1234) := by decide

unseal Rat.mul Rat.add Rat.inv in
/-- Concrete evaluation: parsePrice strips parentheses and does not negate. -/
theorem parsePrice_paren_concrete :
    parsePrice (JsVal.vStr "(100)") = some (JsNum.num 100) := by decide

/-- Claim C8: parseQuantity and parsePrice are total and never throw; the
result is absent exactly for null, undefined, the empty string, or an
unparsable remainder, and otherwise is the non-NaN parse of the stripped
string; parseQuantity "1,234" is 1234 and parsePrice "(100)" is 100, not
-100. -/
theorem C8_normalizers_total (v : JsVal) :
    (parseQuantity v = none ↔
      (v = JsVal.vNull ∨ v = JsVal.vUndef ∨ v = JsVal.vStr "" ∨
        parseFloat (stripAll (fun c => c = ',' || isJsWs c) (jsValToString v)) = JsNum.nan)) ∧
    parseQuantity v ≠ some JsNum.nan ∧
    (parseQuantity v = none ∨
      parseQuantity v =
        some (parseFloat (stripAll (fun c => c = ',' || isJsWs c) (jsValToString v)))) ∧
    (parsePrice v = none ↔
      (v = JsVal.vNull ∨ v = JsVal.vUndef ∨ v = JsVal.vStr "" ∨
        parseFloat (stripAll (fun c => c = '(' || c = ')')
          (stripAll
            (fun c => c = '$' || c = '€' || c = '£' || c = '¥' || c = '₩' || c = ',' || isJsWs c)
            (jsValToString v))) = JsNum.nan)) ∧
    parsePrice v ≠ some JsNum.nan ∧
    (parsePrice v = none ∨
      parsePrice v =
        some (parseFloat (stripAll (fun c => c = '(' || c = ')')
          (stripAll
            (fun c => c = '$' || c = '€' || c = '£' || c = '¥' || c = '₩' || c = ',' || isJsWs c)
            (jsValToString v))))) ∧
    parseQuantity (JsVal.vStr "1,234") = some (JsNum.num 1234) ∧
    parsePrice (JsVal.vStr "(100)") = some (JsNum.num 100) := by
  refine ⟨?_, ?_, ?_, ?_, ?_, ?_, ?_, ?_⟩
  · unfold parseQuantity
    by_cases hc : v = JsVal.vNull ∨ v = JsVal.vUndef ∨ v = JsVal.vStr ""
    · simp only [if_pos hc, true_iff]
      tauto
    · simp only [if_neg hc]
      rcases hpf : parseFloat (stripAll (fun c => c = ',' || isJsWs c) (jsValToString v)) with
        _ | _ | _ | q <;> simp_all
  · unfold parseQuantity
    by_cases hc : v = JsVal.vNull ∨ v = JsVal.vUndef ∨ v = JsVal.vStr ""
    · simp [if_pos hc]
    · simp only [if_neg hc]
      rcases hpf : parseFloat (stripAll (fun c => c = ',' || isJsWs c) (jsValToString v)) with
        _ | _ | _ | q <;> simp
  · unfold parseQuantity
    by_cases hc : v = JsVal.vNull ∨ v = JsVal.vUndef ∨ v = JsVal.vStr ""
    · simp [if_pos hc]
    · simp only [if_neg hc]
      rcases hpf : parseFloat (stripAll (fun c => c = ',' || isJsWs c) (jsValToString v)) with
        _ | _ | _ | q <;> simp
  · unfold parsePrice
    by_cases hc : v = JsVal.vNull ∨ v = JsVal.vUndef ∨ v = JsVal.vStr ""
    · simp only [if_pos hc, true_iff]
      tauto
    · simp only [if_neg hc]
      rcases hpf : parseFloat (stripAll (fun c => c = '(' || c = ')')
          (stripAll
            (fun c => c = '$' || c = '€' || c = '£' || c = '¥' || c = '₩' || c = ',' || isJsWs c)
            (jsValToString v))) with _ | _ | _ | q <;> simp_all
  · unfold parsePrice
    by_cases hc : v = JsVal.vNull ∨ v = JsVal.vUndef ∨ v = JsVal.vStr ""
    · simp [if_pos hc]
    · simp only [if_neg hc]
      rcases hpf : parseFloat (stripAll (fun c => c = '(' || c = ')')
          (stripAll
            (fun c => c = '$' || c = '€' || c = '£' || c = '¥' || c = '₩' || c = ',' || isJsWs c)
            (jsValToString v))) with _ | _ | _ | q <;> simp
  · unfold parsePrice
    by_cases hc : v = JsVal.vNull ∨ v = JsVal.vUndef ∨ v = JsVal.vStr ""
    · simp [if_pos hc]
    · simp only [if_neg hc]
      rcases hpf : parseFloat (stripAll (fun c => c = '(' || c = ')')
          (stripAll
            (fun c => c = '$' || c = '€' || c = '£' || c = '¥' || c = '₩' || c = ',' || isJsWs c)
            (jsValToString v))) with _ | _ | _ | q <;> simp
  · exact parseQuantity_comma_concrete
  · exact parsePrice_paren_concrete

theorem replaceFirstRow_eq_none {n : Nat} {f : ParsedRow → ParsedRow}
    {rows : List ParsedRow} (h : n ∉ rows.map (·.rowNumber)) :
    replaceFirstRow n f rows = none := by
  induction rows with
  | nil => rfl
  | cons r rs ih =>
    simp only [List.map_cons, List.mem_cons] at h
    push_neg at h
    have hne : ¬ (r.rowNumber = n) := fun hr => h.1 hr.symm
    simp only [replaceFirstRow, ih h.2, if_neg hne, Option.map_none']

/-- Claim C7: update-cell on a row number not present in the data returns a
failure result with the not-found message, never throws, and leaves the
row array (both the returned state and the caller's array) unchanged. -/
theorem C7_update_cell_not_found (rows : List ParsedRow) (rowNumber : Nat)
    (field : RowField) (newValue : JsVal)
    (h : rowNumber ∉ rows.map (·.rowNumber)) :
    (updateCellValue rows rowNumber field newValue).success = false ∧
    (updateCellValue rows rowNumber field newValue).rows = rows ∧
    (updateCellValue rows rowNumber field newValue).inputAfter = rows ∧
    (updateCellValue rows rowNumber field newValue).message =
      "Row " ++ Nat.repr rowNumber ++ " not found in the data." := by
  unfold updateCellValue
  rw [replaceFirstRow_eq_none h]
  exact ⟨rfl, rfl, rfl, rfl⟩

/-- Witness for C7 at a concrete input: row number 5 is absent from a
one-row list. -/
theorem C7_update_cell_not_found_witness :
    (updateCellValue [rowQtyFive] 5 RowField.quantity (JsVal.vNum (JsNum.num 7))).success = false ∧
    (updateCellValue [rowQtyFive] 5 RowField.quantity (JsVal.vNum (JsNum.num 7))).rows = [rowQtyFive] ∧
    (updateCellValue [rowQtyFive] 5 RowField.quantity (JsVal.vNum (JsNum.num 7))).inputAfter = [rowQtyFive] ∧
    (updateCellValue [rowQtyFive] 5 RowField.quantity (JsVal.vNum (JsNum.num 7))).message =
      "Row " ++ Nat.repr 5 ++ " not found in the data." :=
  C7_update_cell_not_found [rowQtyFive] 5 RowField.quantity (JsVal.vNum (JsNum.num 7))
    (by decide)

theorem fieldNonEmpty_fieldClear (r : ParsedRow) (f : RowField) :
    fieldNonEmpty (fieldClear r f) f = false := by
  cases f <;> simp [fieldNonEmpty, fieldClear, fieldGet]

/-- Claim C9: replaying delete-rows with the same row numbers removes zero
further rows, and replaying clear-column on the same field reports
affectedCount 0, appends no session remediation record, and leaves the
rows unchanged. -/
theorem C9_replay_idempotent (rows : List ParsedRow) (rowNumbers : List Nat)
    (field : RowField) :
    (deleteRows (deleteRows rows rowNumbers).rows rowNumbers).deletedCount = 0 ∧
    (deleteRows (deleteRows rows rowNumbers).rows rowNumbers).rows =
      (deleteRows rows rowNumbers).rows ∧
    (clearColumn (clearColumn rows field).rows field).affectedCount = 0 ∧
    (clearColumn (clearColumn rows field).rows field).sessionRems = [] ∧
    (clearColumn (clearColumn rows field).rows field).rows =
      (clearColumn rows field).rows := by
  have hdel : ((deleteRows rows rowNumbers).rows.filter
      fun r => !(rowNumbers.contains r.rowNumber)) = (deleteRows rows rowNumbers).rows := by
    simp only [deleteRows, List.filter_filter]
    exact List.filter_congr fun r _ => by cases rowNumbers.contains r.rowNumber <;> rfl
  have hcount : ((clearColumn rows field).rows.countP
      fun row => fieldNonEmpty row field) = 0 := by
    rw [List.countP_eq_zero]
    intro r hr
    simp only [clearColumn, List.mem_map] at hr
    obtain ⟨r0, _, rfl⟩ := hr
    by_cases h0 : fieldNonEmpty r0 field
    · simp [h0, fieldNonEmpty_fieldClear]
    · simp only [if_neg h0]
      exact fun hc => h0 (by simpa using hc)
  have hrows : ((clearColumn rows field).rows.map
      fun row => if fieldNonEmpty row field then fieldClear row field else row) =
      (clearColumn rows field).rows := by
    simp only [clearColumn, List.map_map]
    refine List.map_congr_left fun r _ => ?_
    by_cases h0 : fieldNonEmpty r field
    · simp [Function.comp, h0, fieldNonEmpty_fieldClear]
    · simp [Function.comp, h0]
  refine ⟨?_, ?_, ?_, ?_, ?_⟩
  · show (deleteRows rows rowNumbers).rows.length -
      ((deleteRows rows rowNumbers).rows.filter _).length = 0
    rw [hdel]
    omega
  · show ((deleteRows rows rowNumbers).rows.filter _) = (deleteRows rows rowNumbers).rows
    exact hdel
  · exact hcount
  · show (if 0 < (clearColumn rows field).rows.countP
        (fun row => fieldNonEmpty row field) then _ else []) = []
    rw [hcount]
    rfl
  · exact hrows

/-- Claim C1, counterexample: a row whose quantity equals 0 (present, not
absent) is targeted by fix-missing-quantities when no explicit target rows
are given — its row number is listed, its quantity is overwritten with the
default, and a store remediation with oldValue null is recorded for it. -/
theorem C1_counterexample :
    rowQtyZero.quantity = some (JsNum.num 0) ∧
    (fixMissingQuantities [rowQtyZero] 1 none).affectedRows = [rowQtyZero.rowNumber] ∧
    (fixMissingQuantities [rowQtyZero] 1 none).rows.map (·.quantity) = [some (JsNum.num 1)] ∧
    (fixMissingQuantities [rowQtyZero] 1 none).storeRems.map (·.oldValue) = [JsVal.vNull] := by
  refine ⟨rfl, ?_, ?_, ?_⟩ <;> decide

theorem rowNumber_inj_of_nodup {rows : List ParsedRow}
    (hnd : (rows.map (·.rowNumber)).Nodup) {x y : ParsedRow}
    (hx : x ∈ rows) (hy : y ∈ rows) (hxy : x.rowNumber = y.rowNumber) : x = y :=
  List.inj_on_of_nodup_map hnd hx hy hxy

theorem find?_rowNumber_eq_some {rows l : List ParsedRow} {r : ParsedRow}
    (hnd : (rows.map (·.rowNumber)).Nodup)
    (hrl : r ∈ l) (hsub : ∀ x ∈ l, x ∈ rows) :
    (l.find? fun x => decide (x.rowNumber = r.rowNumber)) = some r := by
  induction l with
  | nil => exact absurd hrl (List.not_mem_nil r)
  | cons a as ih =>
    by_cases ha : a.rowNumber = r.rowNumber
    · have har : a = r := rowNumber_inj_of_nodup hnd
        (hsub a (List.mem_cons_self a as))
        (hsub r hrl) ha
      simp [List.find?_cons, ha, har]
    · have hr' : r ∈ as := by
        rcases List.mem_cons.mp hrl with h | h
        · exact absurd (congrArg (·.rowNumber) h.symm) ha
        · exact h
      simp only [List.find?_cons, decide_eq_false ha]
      exact ih hr' fun x hx => hsub x (List.mem_cons_of_mem a hx)

/-- Claim C1, amended: with distinct row numbers (the data-model
invariant), fix-missing-quantities without explicit targets targets
exactly the rows whose quantity is absent or equal to 0; it sets the
default quantity on each and stores one remediation per targeted row with
oldValue null. -/
theorem C1_amended_fix_targets (rows : List ParsedRow) (d : ℚ)
    (hnd : (rows.map (·.rowNumber)).Nodup) :
    (fixMissingQuantities rows d none).affectedRows =
      (rows.filter fun r =>
        r.quantity = none ∨ r.quantity = some (JsNum.num 0)).map (·.rowNumber) ∧
    (fixMissingQuantities rows d none).storeRems =
      (rows.filter fun r => r.quantity = none ∨ r.quantity = some (JsNum.num 0)).map
        (fun r =>
          { rowNumber := r.rowNumber, field := "quantity", oldValue := JsVal.vNull,
            newValue := JsVal.vNum (JsNum.num d),
            reason := "Auto-fixed: Set missing quantity to " ++ qReprNN d }) ∧
    (fixMissingQuantities rows d none).rows =
      rows.map (fun r =>
        if r.quantity = none ∨ r.quantity = some (JsNum.num 0)
        then { r with quantity := some (JsNum.num d) } else r) := by
  refine ⟨rfl, ?_, ?_⟩
  · simp only [fixMissingQuantities, findMissingQuantities, Option.getD_none, List.map_map]
    rfl
  · simp only [fixMissingQuantities, applyQuantityFixes, findMissingQuantities,
      Option.getD_none, List.map_map]
    refine List.map_congr_left fun r hr => ?_
    have hfind :
        (List.find? (fun f => decide (f.rowNumber = r.rowNumber))
          (List.map
            ((fun rowNum =>
                ({ rowNumber := rowNum, quantity := d,
                   reason := "Auto-fixed: Set missing quantity to " ++ qReprNN d } : QtyFix)) ∘
              fun x => x.rowNumber)
            (rows.filter fun row =>
              decide (row.quantity = none ∨ row.quantity = some (JsNum.num 0))))) =
        if r.quantity = none ∨ r.quantity = some (JsNum.num 0) then
          some ({ rowNumber := r.rowNumber, quantity := d,
                  reason := "Auto-fixed: Set missing quantity to " ++ qReprNN d } : QtyFix)
        else none := by
      rw [List.find?_map]
      by_cases hp : r.quantity = none ∨ r.quantity = some (JsNum.num 0)
      · rw [if_pos hp]
        have hfe := find?_rowNumber_eq_some (l :=
            rows.filter fun row =>
              decide (row.quantity = none ∨ row.quantity = some (JsNum.num 0)))
          (r := r) hnd
          (List.mem_filter.mpr ⟨hr, by simpa using hp⟩)
          (fun x hx => (List.mem_filter.mp hx).1)
        have hcomp :
            ((fun f : QtyFix => decide (f.rowNumber = r.rowNumber)) ∘
              ((fun rowNum =>
                ({ rowNumber := rowNum, quantity := d,
                   reason := "Auto-fixed: Set missing quantity to " ++ qReprNN d } : QtyFix)) ∘
                fun x : ParsedRow => x.rowNumber)) =
            fun x : ParsedRow => decide (x.rowNumber = r.rowNumber) := rfl
        rw [hcomp, hfe]
        rfl
      · rw [if_neg hp, Option.map_eq_none', List.find?_eq_none]
        intro x hx
        simp only [Function.comp, decide_eq_true_eq]
        intro hxr
        have hxm := List.mem_filter.mp hx
        have hxeq : x = r := rowNumber_inj_of_nodup hnd hxm.1 hr hxr
        subst hxeq
        exact hp (by simpa using hxm.2)
    by_cases hp : r.quantity = none ∨ r.quantity = some (JsNum.num 0)
    · simp only [Function.comp]
      rw [hfind, if_pos hp, if_pos hp]
    · simp only [Function.comp]
      rw [hfind, if_neg hp, if_neg hp]

/-- Witness for C1 at a concrete input: a zero-quantity row, an
absent-quantity row and a present-quantity row with distinct row
numbers. -/
theorem C1_amended_fix_targets_witness :
    (fixMissingQuantities [rowQtyZero, rowQtyAbsent, rowQtyFive] 1 none).affectedRows =
      ([rowQtyZero, rowQtyAbsent, rowQtyFive].filter fun r =>
        r.quantity = none ∨ r.quantity = some (JsNum.num 0)).map (·.rowNumber) ∧
    (fixMissingQuantities [rowQtyZero, rowQtyAbsent, rowQtyFive] 1 none).rows =
      [rowQtyZero, rowQtyAbsent, rowQtyFive].map (fun r =>
        if r.quantity = none ∨ r.quantity = some (JsNum.num 0)
        then { r with quantity := some (JsNum.num 1) } else r) :=
  ⟨(C1_amended_fix_targets [rowQtyZero, rowQtyAbsent, rowQtyFive] 1 (by decide)).1,
   (C1_amended_fix_targets [rowQtyZero, rowQtyAbsent, rowQtyFive] 1 (by decide)).2.2⟩

theorem replaceFirstRow_mem {n : Nat} {f : ParsedRow → ParsedRow} :
    ∀ {rows : List ParsedRow} {p : List ParsedRow × ParsedRow},
    replaceFirstRow n f rows = some p → ∀ r ∈ rows, r.rowNumber ≠ n → r ∈ p.1 := by
  intro rows
  induction rows with
  | nil =>
    intro p h
    exact absurd h (by simp [replaceFirstRow])
  | cons a as ih =>
    intro p h r hr hne
    by_cases ha : a.rowNumber = n
    · simp only [replaceFirstRow, if_pos ha, Option.some.injEq] at h
      subst h
      rcases List.mem_cons.mp hr with rfl | htail
      · exact absurd ha hne
      · exact List.mem_cons_of_mem _ htail
    · simp only [replaceFirstRow, if_neg ha] at h
      rcases hrep : replaceFirstRow n f as with _ | q
      · rw [hrep] at h
        exact absurd h (by simp)
      · rw [hrep] at h
        simp only [Option.map_some', Option.some.injEq] at h
        subst h
        rcases List.mem_cons.mp hr with rfl | htail
        · exact List.mem_cons_self r _
        · exact List.mem_cons_of_mem _ (ih hrep r htail hne)

/-- Claim C2, counterexample: a successful update-cell call writes the
replacement row into the caller's array — after the call the caller's
array no longer equals the original input. -/
theorem C2_counterexample :
    (updateCellValue [rowQtyFive] 4 RowField.quantity (JsVal.vNum (JsNum.num 7))).success
      = true ∧
    (updateCellValue [rowQtyFive] 4 RowField.quantity (JsVal.vNum (JsNum.num 7))).inputAfter
      ≠ [rowQtyFive] := by
  refine ⟨?_, ?_⟩ <;> decide

/-- Claim C2, amended: fix-missing-quantities, delete-rows and
clear-column return fresh arrays and leave the caller's input array
unchanged; update-cell instead replaces the located row inside the
caller's array (the caller's array equals the returned state afterwards);
in all four operations every row untouched by the operation is carried
into the output unchanged, and no row object is mutated in place. -/
theorem C2_amended_purity (rows : List ParsedRow) (d : ℚ) (t : Option (List Nat))
    (ns : List Nat) (f : RowField) (rn : Nat) (fl : RowField) (v : JsVal) :
    (fixMissingQuantities rows d t).inputAfter = rows ∧
    (deleteRows rows ns).inputAfter = rows ∧
    (clearColumn rows f).inputAfter = rows ∧
    (updateCellValue rows rn fl v).inputAfter = (updateCellValue rows rn fl v).rows ∧
    (∀ r ∈ rows, r.rowNumber ∉ (fixMissingQuantities rows d t).affectedRows →
      r ∈ (fixMissingQuantities rows d t).rows) ∧
    (∀ r ∈ rows, r.rowNumber ∉ ns → r ∈ (deleteRows rows ns).rows) ∧
    (∀ r ∈ rows, fieldNonEmpty r f = false → r ∈ (clearColumn rows f).rows) ∧
    (∀ r ∈ rows, r.rowNumber ≠ rn → r ∈ (updateCellValue rows rn fl v).rows) := by
  refine ⟨rfl, rfl, rfl, ?_, ?_, ?_, ?_, ?_⟩
  · unfold updateCellValue
    rcases hrep : replaceFirstRow rn (fun r => fieldSetCoerced r fl v) rows with _ | p
    · rfl
    · rfl
  · intro r hr hna
    have hna' : r.rowNumber ∉ t.getD (findMissingQuantities rows) := hna
    show r ∈ (fixMissingQuantities rows d t).rows
    simp only [fixMissingQuantities, applyQuantityFixes, List.map_map]
    refine List.mem_map.mpr ⟨r, hr, ?_⟩
    have hfind : ((t.getD (findMissingQuantities rows)).map fun rowNum =>
        ({ rowNumber := rowNum, quantity := d,
           reason := "Auto-fixed: Set missing quantity to " ++ qReprNN d } : QtyFix)).find?
          (fun fx => decide (fx.rowNumber = r.rowNumber)) = none := by
      rw [List.find?_eq_none]
      intro x hx
      simp only [List.mem_map] at hx
      obtain ⟨rowNum, hmem, rfl⟩ := hx
      simp only [decide_eq_true_eq]
      exact fun hc => hna' (hc ▸ hmem)
    simp only [Function.comp]
    rw [hfind]
  · intro r hr hna
    refine List.mem_filter.mpr ⟨hr, ?_⟩
    simp [hna]
  · intro r hr hne
    refine List.mem_map.mpr ⟨r, hr, ?_⟩
    rw [if_neg (by simpa using hne)]
  · intro r hr hne
    unfold updateCellValue
    rcases hrep : replaceFirstRow rn (fun row => fieldSetCoerced row fl v) rows with _ | p
    · exact hr
    · exact replaceFirstRow_mem hrep r hr hne

/-- Witness for C2's amended statement at concrete inputs. -/
theorem C2_amended_purity_witness :
    (deleteRows [rowQtyFive] [9]).inputAfter = [rowQtyFive] ∧
    rowQtyFive ∈ (deleteRows [rowQtyFive] [9]).rows ∧
    rowQtyFive ∈ (updateCellValue [rowQtyFive] 9 RowField.quantity
      (JsVal.vNum (JsNum.num 7))).rows := by
  have h := C2_amended_purity [rowQtyFive] 1 none [9] RowField.notes 9 RowField.quantity
    (JsVal.vNum (JsNum.num 7))
  exact ⟨h.2.1, h.2.2.2.2.2.1 rowQtyFive (by decide) (by decide),
    h.2.2.2.2.2.2.2 rowQtyFive (by decide) (by decide)⟩

theorem filter_level_orderedInsert (a : RiskFlag) (l : List RiskFlag) (lv : RiskLevel) :
    (List.orderedInsert riskLE a l).filter (fun f => f.level = lv) =
      if a.level = lv then a :: l.filter (fun f => f.level = lv)
      else l.filter (fun f => f.level = lv) := by
  induction l with
  | nil =>
    simp only [List.orderedInsert, List.filter]
    by_cases ha : a.level = lv
    · simp [ha]
    · simp [ha]
  | cons b l ih =>
    by_cases hab : riskLE a b
    · rw [List.orderedInsert, if_pos hab]
      by_cases ha : a.level = lv <;> by_cases hb : b.level = lv <;>
        simp [List.filter_cons, ha, hb]
    · rw [List.orderedInsert, if_neg hab]
      have hlt : levelRank b.level < levelRank a.level := Nat.lt_of_not_le hab
      by_cases ha : a.level = lv
      · have hb : ¬ (b.level = lv) := fun hb => by
          rw [ha] at hlt
          rw [hb] at hlt
          exact Nat.lt_irrefl _ hlt
        simp [List.filter_cons, hb, ih, ha]
      · by_cases hb : b.level = lv <;> simp [List.filter_cons, ha, hb, ih]

theorem filter_level_insertionSort (l : List RiskFlag) (lv : RiskLevel) :
    (l.insertionSort riskLE).filter (fun f => f.level = lv) =
      l.filter (fun f => f.level = lv) := by
  induction l with
  | nil => rfl
  | cons a l ih =>
    rw [List.insertionSort, filter_level_orderedInsert, ih]
    by_cases ha : a.level = lv <;> simp [List.filter_cons, ha]

/-- Claim C3: the aggregator returns a permutation of the concatenated
detector outputs, sorted by severity rank with critical first, and the
sort is stable — for every severity the subsequence of findings at that
severity equals the one of the concatenation, so ties keep their
detector-emission order. -/
theorem C3_aggregator_stable_sort (rawText : String) (rows : List ParsedRow) :
    (analyzeAllRisks rawText rows).Perm (detectorConcat rawText rows) ∧
    (analyzeAllRisks rawText rows).Sorted riskLE ∧
    ∀ lv, (analyzeAllRisks rawText rows).filter (fun f => f.level = lv) =
      (detectorConcat rawText rows).filter (fun f => f.level = lv) :=
  ⟨List.perm_insertionSort riskLE (detectorConcat rawText rows),
   List.sorted_insertionSort riskLE (detectorConcat rawText rows),
   fun lv => filter_level_insertionSort (detectorConcat rawText rows) lv⟩

theorem mapWithIndex_length (f : Nat → RawRow → ParsedRow) :
    ∀ (i : Nat) (l : List RawRow), (mapWithIndex f i l).length = l.length := by
  intro i l
  induction l generalizing i with
  | nil => rfl
  | cons r rs ih => simp [mapWithIndex, ih]

theorem mapWithIndex_rowNumbers (cm : ColumnMapping) :
    ∀ (l : List RawRow) (i : Nat),
    (mapWithIndex (materializeRow cm) i l).map (·.rowNumber) = List.range' (i + 2) l.length := by
  intro l
  induction l with
  | nil => intro i; rfl
  | cons r rs ih =>
    intro i
    show (i + 2) :: (mapWithIndex (materializeRow cm) (i + 1) rs).map (·.rowNumber) = _
    rw [ih (i + 1)]
    show _ = List.range' (i + 2) (rs.length + 1)
    rw [List.range'_succ]

theorem detectIncoterms_types {t : String} :
    ∀ f ∈ detectIncoterms t, f.type = RiskType.incoterms := by
  intro f hf
  simp only [detectIncoterms] at hf
  have hloop : ∀ g ∈ incotermLoopFlags t, g.type = RiskType.incoterms := by
    intro g hg
    unfold incotermLoopFlags at hg
    obtain ⟨e, _, hge⟩ := List.mem_bind.mp hg
    rcases hsb : scanBoundary (incoTermAt e.term) none (t.data.map upChar) with _ | m <;>
      rw [hsb] at hge <;> simp_all [mkIncotermFlag]
  split at hf
  · rcases List.mem_append.mp hf with h | h
    · exact hloop f h
    · simp only [List.mem_singleton] at h
      subst h
      rfl
  · exact hloop f hf

theorem detectLiquidatedDamages_types {t : String} :
    ∀ f ∈ detectLiquidatedDamages t, f.type = RiskType.liquidated_damages := by
  intro f hf
  rcases hm : ldPatterns.findSome? (fun p => matchFirst p t.data) with _ | m0 <;>
    simp only [detectLiquidatedDamages, hm] at hf <;> simp_all

theorem detectDuplicates_types {rows : List ParsedRow} :
    ∀ f ∈ detectDuplicates rows, f.type = RiskType.duplicate := by
  intro f hf
  unfold detectDuplicates at hf
  obtain ⟨g, _, hfg⟩ := List.mem_bind.mp hf
  split at hfg <;> simp_all

theorem detectUoMConflicts_types {rows : List ParsedRow} :
    ∀ f ∈ detectUoMConflicts rows, f.type = RiskType.uom_conflict := by
  intro f hf
  unfold detectUoMConflicts at hf
  obtain ⟨r, _, hfr⟩ := List.mem_bind.mp hf
  split at hfr
  · simp_all
  · rcases hq : r.quantity with _ | q <;> rw [hq] at hfr
    · simp_all
    · rcases List.mem_append.mp hfr with h | h <;> split at h <;> simp_all

theorem detectMissingData_types {rows : List ParsedRow} :
    ∀ f ∈ detectMissingData rows, f.type = RiskType.missing_data := by
  intro f hf
  unfold detectMissingData at hf
  rcases List.mem_append.mp hf with h | h <;> split at h <;> simp_all

theorem analyzeAllRisks_not_general {t : String} {rows : List ParsedRow} :
    ∀ f ∈ analyzeAllRisks t rows, f.type ≠ RiskType.general := by
  intro f hf
  have hc : f ∈ detectorConcat t rows := by
    unfold analyzeAllRisks at hf
    exact (List.mem_insertionSort riskLE).mp hf
  unfold detectorConcat at hc
  rcases List.mem_append.mp hc with h | h
  swap
  · rw [detectMissingData_types f h]
    nofun
  rcases List.mem_append.mp h with h | h
  swap
  · rw [detectUoMConflicts_types f h]
    nofun
  rcases List.mem_append.mp h with h | h
  swap
  · rw [detectDuplicates_types f h]
    nofun
  rcases List.mem_append.mp h with h | h
  · rw [detectIncoterms_types f h]
    nofun
  · rw [detectLiquidatedDamages_types f h]
    nofun

/-- Claim C5: the row materializer produces exactly min(n, ceiling) rows
whose row numbers are the contiguous sequence 2, 3, …, min(n, ceiling)+1
in source order, and the medium truncation-warning finding is present in
the result exactly when n exceeds the ceiling. -/
theorem C5_materializer_rows (rawRows : List RawRow) (rawText : String)
    (cm : ColumnMapping) (maxRows : Nat) :
    (processExcelFile maxRows (PipelineCase.parsed rawRows rawText cm)).rows.length =
      min rawRows.length maxRows ∧
    (processExcelFile maxRows (PipelineCase.parsed rawRows rawText cm)).rows.map
      (·.rowNumber) = List.range' 2 (min rawRows.length maxRows) ∧
    (truncFlag rawRows.length maxRows ∈
        (processExcelFile maxRows (PipelineCase.parsed rawRows rawText cm)).risks ↔
      maxRows < rawRows.length) ∧
    (truncFlag rawRows.length maxRows).level = RiskLevel.medium := by
  have hlen : (rawRows.take maxRows).length = min rawRows.length maxRows := by
    rw [List.length_take]
    omega
  refine ⟨?_, ?_, ?_, rfl⟩
  · show (mapWithIndex (materializeRow cm) 0 (rawRows.take maxRows)).length = _
    rw [mapWithIndex_length, hlen]
  · show (mapWithIndex (materializeRow cm) 0 (rawRows.take maxRows)).map (·.rowNumber) = _
    rw [mapWithIndex_rowNumbers, hlen]
  · show truncFlag rawRows.length maxRows ∈
      (if maxRows < rawRows.length then
        truncFlag rawRows.length maxRows ::
          analyzeAllRisks rawText (mapWithIndex (materializeRow cm) 0 (rawRows.take maxRows))
      else
        analyzeAllRisks rawText (mapWithIndex (materializeRow cm) 0 (rawRows.take maxRows))) ↔
      maxRows < rawRows.length
    by_cases hlim : maxRows < rawRows.length
    · simp [hlim]
    · rw [if_neg hlim]
      constructor
      · intro hmem
        exact absurd rfl (analyzeAllRisks_not_general _ hmem)
      · intro h
        exact absurd h hlim

theorem countP_levels_partition (l : List RiskFlag) :
    l.countP (fun r => r.level = RiskLevel.critical) +
      l.countP (fun r => r.level = RiskLevel.high) +
      l.countP (fun r => r.level = RiskLevel.medium) +
      l.countP (fun r => r.level = RiskLevel.low) = l.length := by
  induction l with
  | nil => rfl
  | cons a l ih =>
    simp only [List.countP_cons, List.length_cons]
    cases ha : a.level <;> simp [ha] <;> omega

/-- Claim C10: on every pipeline result — success and failure paths alike —
totalRisks equals the number of risks and the sum of the four per-level
counts, totalRows equals the number of rows, and validRows counts the rows
with non-blank trimmed part numbers, hence validRows is at most
totalRows. -/
theorem C10_summary_invariants (maxRows : Nat) (c : PipelineCase) :
    (processExcelFile maxRows c).summary.totalRisks =
      (processExcelFile maxRows c).risks.length ∧
    (processExcelFile maxRows c).summary.totalRisks =
      (processExcelFile maxRows c).summary.criticalRisks +
      (processExcelFile maxRows c).summary.highRisks +
      (processExcelFile maxRows c).summary.mediumRisks +
      (processExcelFile maxRows c).summary.lowRisks ∧
    (processExcelFile maxRows c).summary.totalRows =
      (processExcelFile maxRows c).rows.length ∧
    (processExcelFile maxRows c).summary.validRows =
      (processExcelFile maxRows c).rows.countP (fun r => strTrim r.partNumber ≠ "") ∧
    (processExcelFile maxRows c).summary.validRows ≤
      (processExcelFile maxRows c).summary.totalRows := by
  have hvalid : ∀ rows : List ParsedRow,
      (rows.countP fun r => r.partNumber ≠ "" ∧ strTrim r.partNumber ≠ "") =
      rows.countP (fun r => strTrim r.partNumber ≠ "") := by
    intro rows
    refine List.countP_congr fun r _ => ?_
    by_cases htr : strTrim r.partNumber = ""
    · simp [htr]
    · have hpn : r.partNumber ≠ "" := by
        intro hpn
        rw [hpn] at htr
        exact htr rfl
      simp [htr, hpn]
  cases c with
  | noFile => exact ⟨rfl, rfl, rfl, rfl, Nat.le_refl 0⟩
  | parseFailed errMsg => exact ⟨rfl, rfl, rfl, rfl, Nat.le_refl 0⟩
  | processFailed errMsg => exact ⟨rfl, rfl, rfl, rfl, Nat.le_refl 0⟩
  | parsed rawRows rawText cm =>
    refine ⟨rfl, ?_, rfl, ?_, ?_⟩
    · exact (countP_levels_partition _).symm
    · exact hvalid _
    · show (_ : List ParsedRow).countP _ ≤ (_ : List ParsedRow).length
      exact List.countP_le_length _

unseal Rat.mul Rat.add Rat.inv Rat.sub in
/-- Claim C4, counterexample: in "liquidated damages 0.2% deducted" no
standalone percentage-per-time-unit occurs and no cap occurs, so the
claimed severity is the default high; the detector reports medium because
the time-unit groups of its severity regex are optional and the bare
"0.2%" sets the band. -/
theorem C4_counterexample :
    matchFirst specPerTimeUnitPat ldCounterText.data = none ∧
    capFirst ldCounterText.data = none ∧
    (detectLiquidatedDamages ldCounterText).map (·.level) = [RiskLevel.medium] := by
  refine ⟨?_, ?_, ?_⟩ <;> decide

/-- Claim C4, amended: when some LD pattern matches, exactly one
liquidated-damages finding is emitted (first matching pattern wins); its
severity comes from the first percentage occurrence in the text with the
time unit optional (at least 1 percent critical, at least 0.5 percent
high, smaller medium, high when no percentage occurs), a cap above 10
percent forces critical, and the cap value is appended to the title. -/
theorem C4_amended_ld_detector (t : String)
    (h : (ldPatterns.findSome? fun p => matchFirst p t.data).isSome = true) :
    (detectLiquidatedDamages t).length = 1 ∧
    ∀ f ∈ detectLiquidatedDamages t,
      f.type = RiskType.liquidated_damages ∧
      f.level = ldFinalLevel t ∧
      f.title = "Liquidated Damages Clause Detected" ++ ldCapSuffix t := by
  obtain ⟨m0, hm⟩ := Option.isSome_iff_exists.mp h
  constructor
  · simp [detectLiquidatedDamages, hm]
  · intro f hf
    simp only [detectLiquidatedDamages, hm, List.mem_singleton] at hf
    subst hf
    refine ⟨rfl, ?_, ?_⟩
    · show (match capFirst t.data with
        | some g1 =>
          if (parseFloat ⟨g1⟩).gt 10 = true then RiskLevel.critical
          else match percentFirst t.data with
            | some pr =>
              if (parseFloat ⟨pr.1⟩).ge 1 = true then RiskLevel.critical
              else if (parseFloat ⟨pr.1⟩).ge (1/2) = true then RiskLevel.high
              else RiskLevel.medium
            | none => RiskLevel.high
        | none =>
          match percentFirst t.data with
          | some pr =>
            if (parseFloat ⟨pr.1⟩).ge 1 = true then RiskLevel.critical
            else if (parseFloat ⟨pr.1⟩).ge (1/2) = true then RiskLevel.high
            else RiskLevel.medium
          | none => RiskLevel.high) = ldFinalLevel t
      rcases hc : capFirst t.data with _ | g1 <;>
        rcases hp : percentFirst t.data with _ | pr <;>
          simp [ldFinalLevel, ldBandLevel, hc, hp]
    · show "Liquidated Damages Clause Detected" ++
        (match capFirst t.data with
          | some g1 => " (Capped at " ++ jsNumRepr (parseFloat ⟨g1⟩) ++ "%)"
          | none => "") = "Liquidated Damages Clause Detected" ++ ldCapSuffix t
      rcases hc : capFirst t.data with _ | g1 <;> simp [ldCapSuffix, hc]

/-- Witness for C4's amended statement: "liquidated damages of 2% per day"
matches the first pattern. -/
theorem C4_amended_ld_detector_witness :
    (detectLiquidatedDamages ldWitnessText).length = 1 ∧
    ∀ f ∈ detectLiquidatedDamages ldWitnessText,
      f.type = RiskType.liquidated_damages ∧
      f.level = ldFinalLevel ldWitnessText ∧
      f.title = "Liquidated Damages Clause Detected" ++ ldCapSuffix ldWitnessText :=
  C4_amended_ld_detector ldWitnessText (by decide)

theorem mLitCIChars_eq :
    ∀ {ps cs m r : List Char}, mLitCIChars ps cs = some (m, r) →
      cs = m ++ r ∧ m.map upChar = ps.map upChar := by
  intro ps
  induction ps with
  | nil =>
    intro cs m r h
    simp only [mLitCIChars, Option.some.injEq, Prod.mk.injEq] at h
    obtain ⟨rfl, rfl⟩ := h
    exact ⟨rfl, rfl⟩
  | cons p ps ih =>
    intro cs m r h
    cases cs with
    | nil => exact absurd h (by simp [mLitCIChars])
    | cons c cs' =>
      simp only [mLitCIChars] at h
      by_cases hci : ciEqChar p c
      · rw [if_pos hci] at h
        rcases hq : mLitCIChars ps cs' with _ | q
        · rw [hq] at h
          exact absurd h (by simp)
        · rw [hq] at h
          simp only [Option.map_some', Option.some.injEq] at h
          obtain ⟨rfl, rfl⟩ := Prod.mk.injEq .. ▸ h
          obtain ⟨h1, h2⟩ := ih hq
          refine ⟨by rw [h1]; rfl, ?_⟩
          have hup : upChar c = upChar p := (of_decide_eq_true hci).symm
          simp [h2, hup]
      · rw [if_neg hci] at h
        exact absurd h (by simp)

theorem mSeq_eq {a b : Matcher} {cs m r : List Char}
    (h : mSeq a b cs = some (m, r)) :
    ∃ m1 r1 m2, a cs = some (m1, r1) ∧ b r1 = some (m2, r) ∧ m = m1 ++ m2 := by
  unfold mSeq at h
  rcases ha : a cs with _ | p1
  · rw [ha] at h
    exact absurd h (by simp)
  · obtain ⟨m1, r1⟩ := p1
    rw [ha] at h
    simp only [Option.some_bind] at h
    rcases hb : b r1 with _ | p2
    · rw [hb] at h
      exact absurd h (by simp)
    · obtain ⟨m2, r2⟩ := p2
      rw [hb] at h
      simp only [Option.map_some', Option.some.injEq, Prod.mk.injEq] at h
      refine ⟨m1, r1, m2, rfl, ?_, h.1.symm⟩
      rw [← h.2]
      exact hb

theorem scanBoundary_eq {m : Matcher} :
    ∀ {cs : List Char} {prev : Option Char} {res : List Char},
      scanBoundary m prev cs = some res →
      ∃ cs1 r, m cs1 = some (res, r) ∧ ∀ c ∈ cs1, c ∈ cs := by
  intro cs
  induction cs with
  | nil =>
    intro prev res h
    simp only [scanBoundary] at h
    split at h
    · rcases hm : m [] with _ | p
      · rw [hm] at h
        exact absurd h (by simp)
      · rw [hm] at h
        simp only [Option.map_some', Option.some.injEq] at h
        refine ⟨[], p.2, ?_, by simp⟩
        rw [hm, ← h]
    · exact absurd h (by simp)
  | cons c cs' ih =>
    intro prev res h
    simp only [scanBoundary] at h
    cases hok : (match prev with | none => true | some p => !isWordChar p) with
    | false =>
      rw [hok] at h
      simp only [Bool.false_eq_true, if_false] at h
      obtain ⟨cs1, r, hm, hsub⟩ := ih h
      exact ⟨cs1, r, hm, fun x hx => List.mem_cons_of_mem c (hsub x hx)⟩
    | true =>
      rw [hok] at h
      simp only [if_true] at h
      rcases hm : m (c :: cs') with _ | p
      · rw [hm] at h
        simp only [Option.map_none'] at h
        obtain ⟨cs1, r, hmm, hsub⟩ := ih h
        exact ⟨cs1, r, hmm, fun x hx => List.mem_cons_of_mem c (hsub x hx)⟩
      · rw [hm] at h
        simp only [Option.map_some', Option.some.injEq] at h
        refine ⟨c :: cs', p.2, ?_, fun x hx => hx⟩
        rw [hm, ← h]

theorem ddp_match_prefix {t : String} {matched : List Char}
    (h : scanBoundary (incoTermAt "DDP") none (t.data.map upChar) = some matched) :
    ∃ z, matched = 'D' :: 'D' :: 'P' :: z := by
  obtain ⟨cs1, r, hm, hsub⟩ := scanBoundary_eq h
  obtain ⟨m1, r1, m2, ha, _, hm12⟩ := mSeq_eq hm
  obtain ⟨hcs1, hmap⟩ := mLitCIChars_eq ha
  have hfix : ∀ c ∈ m1, upChar c = c := by
    intro c hc
    have hc1 : c ∈ cs1 := by
      rw [hcs1]
      exact List.mem_append_left _ hc
    obtain ⟨c0, _, rfl⟩ := List.mem_map.mp (hsub c hc1)
    exact upChar_upChar c0
  have hm1 : m1 = ['D', 'D', 'P'] := by
    have h1 : m1.map upChar = ['D', 'D', 'P'] := hmap
    calc m1 = m1.map upChar := by
              rw [List.map_congr_left fun c hc => hfix c hc]
              simp
         _ = ['D', 'D', 'P'] := h1
  exact ⟨m2, by rw [hm12, hm1]; rfl⟩

theorem rtrimChars_ddp (z : List Char) :
    ∃ w, rtrimChars ('D' :: 'D' :: 'P' :: z) = 'D' :: 'D' :: 'P' :: w := by
  unfold rtrimChars
  rw [show ('D' :: 'D' :: 'P' :: z).reverse = z.reverse ++ ['P', 'D', 'D'] by simp]
  rw [List.dropWhile_append]
  by_cases hz : (z.reverse.dropWhile isJsWs).isEmpty
  · rw [if_pos (by simpa using hz)]
    exact ⟨[], rfl⟩
  · rw [if_neg (by simpa using hz)]
    refine ⟨(z.reverse.dropWhile isJsWs).reverse, ?_⟩
    rw [List.reverse_append]
    rfl

theorem trimChars_ddp (z : List Char) :
    ∃ w, trimChars ('D' :: 'D' :: 'P' :: z) = 'D' :: 'D' :: 'P' :: w := by
  unfold trimChars
  rw [show ('D' :: 'D' :: 'P' :: z).dropWhile isJsWs = 'D' :: 'D' :: 'P' :: z from by
    rw [List.dropWhile_cons_of_neg (by decide)]]
  exact rtrimChars_ddp z

theorem hasSubChars_ddp (z : List Char) :
    hasSubChars "DDP".data ('D' :: 'D' :: 'P' :: z) = true := by
  show (startsWithChars "DDP".data ('D' :: 'D' :: 'P' :: z) || _) = true
  rw [show startsWithChars "DDP".data ('D' :: 'D' :: 'P' :: z) = true from by
    simp [startsWithChars]]
  rfl

theorem extractedHasDDP_of_match {t : String} {matched : List Char} {e : IncotermEntry}
    (h : scanBoundary (incoTermAt "DDP") none (t.data.map upChar) = some matched) :
    extractedHasDDP (mkIncotermFlag e matched) = true := by
  obtain ⟨z, rfl⟩ := ddp_match_prefix h
  show strIncl (strTrim ⟨'D' :: 'D' :: 'P' :: z⟩) "DDP" = true
  obtain ⟨w, hw⟩ := trimChars_ddp z
  show hasSubChars "DDP".data (trimChars ('D' :: 'D' :: 'P' :: z)) = true
  rw [hw]
  exact hasSubChars_ddp w

theorem incotermLoopFlags_titles {t : String} :
    ∀ f ∈ incotermLoopFlags t, f.title ≠ "DDP-equivalent Terms Detected" := by
  intro f hf
  simp only [incotermLoopFlags] at hf
  obtain ⟨e, he, hfe⟩ := List.mem_bind.mp hf
  rcases hsb : scanBoundary (incoTermAt e.term) none (t.data.map upChar) with _ | mm <;>
    rw [hsb] at hfe
  · simp at hfe
  · simp only [List.mem_singleton] at hfe
    subst hfe
    show "Incoterm Detected: " ++ e.term ≠ _
    fin_cases he <;> decide

theorem filter_criticalDDP_part (e : IncotermEntry) (u : List Char)
    (he : e.riskLevel ≠ RiskLevel.critical) :
    (match scanBoundary (incoTermAt e.term) none u with
      | none => ([] : List RiskFlag)
      | some matched => [mkIncotermFlag e matched]).filter criticalDDP = [] := by
  rcases h : scanBoundary (incoTermAt e.term) none u with _ | mm
  · rfl
  · simp [criticalDDP, mkIncotermFlag, he]

theorem incotermLoopFlags_filter_criticalDDP {t : String} {matched : List Char}
    (hddp : scanBoundary (incoTermAt "DDP") none (t.data.map upChar) = some matched) :
    (incotermLoopFlags t).filter criticalDDP = [mkIncotermFlag ddpEntry matched] := by
  have hd : extractedHasDDP (mkIncotermFlag ddpEntry matched) = true :=
    extractedHasDDP_of_match hddp
  simp only [incotermLoopFlags, INCOTERMS_DATA, List.cons_bind, List.nil_bind,
    List.filter_append, List.append_nil]
  rw [filter_criticalDDP_part ⟨"EXW", RiskLevel.low, "Ex Works - Minimal seller responsibility"⟩ _ (by decide),
    filter_criticalDDP_part ⟨"FCA", RiskLevel.low, "Free Carrier - Seller delivers to carrier"⟩ _ (by decide),
    filter_criticalDDP_part ⟨"FAS", RiskLevel.medium, "Free Alongside Ship - Seller delivers alongside vessel"⟩ _ (by decide),
    filter_criticalDDP_part ⟨"FOB", RiskLevel.medium, "Free on Board - Seller loads onto vessel"⟩ _ (by decide),
    filter_criticalDDP_part ⟨"CFR", RiskLevel.medium, "Cost and Freight - Seller pays freight to destination"⟩ _ (by decide),
    filter_criticalDDP_part ⟨"CIF", RiskLevel.medium, "Cost, Insurance, Freight - Seller pays freight + insurance"⟩ _ (by decide),
    filter_criticalDDP_part ⟨"CPT", RiskLevel.medium, "Carriage Paid To - Seller pays carriage to destination"⟩ _ (by decide),
    filter_criticalDDP_part ⟨"CIP", RiskLevel.high, "Carriage and Insurance Paid - Seller pays carriage + insurance"⟩ _ (by decide),
    filter_criticalDDP_part ⟨"DAP", RiskLevel.high, "Delivered at Place - Seller delivers to named place"⟩ _ (by decide),
    filter_criticalDDP_part ⟨"DPU", RiskLevel.high, "Delivered at Place Unloaded - Seller unloads at destination"⟩ _ (by decide)]
  show ((match scanBoundary (incoTermAt "DDP") none (t.data.map upChar) with
      | none => ([] : List RiskFlag)
      | some matched => [mkIncotermFlag ddpEntry matched]).filter criticalDDP) = _
  rw [hddp]
  have hcd : criticalDDP (mkIncotermFlag ddpEntry matched) = true := by
    unfold criticalDDP
    rw [hd]
    simp [mkIncotermFlag, ddpEntry]
  simp [List.filter_cons, hcd]

theorem ddp_flag_mem_loop {t : String} {matched : List Char}
    (hddp : scanBoundary (incoTermAt "DDP") none (t.data.map upChar) = some matched) :
    mkIncotermFlag ddpEntry matched ∈ incotermLoopFlags t := by
  have h := incotermLoopFlags_filter_criticalDDP hddp
  have : mkIncotermFlag ddpEntry matched ∈ (incotermLoopFlags t).filter criticalDDP := by
    rw [h]
    exact List.mem_singleton_self _
  exact (List.mem_filter.mp this).1

/-- Claim C6: for text containing the phrase "delivered duty paid", the
extra implied-DDP finding is emitted exactly when no flag already emitted
by the reference-table loop has an extracted value containing DDP; and
when the literal code DDP also matches at a word boundary, the output
contains exactly one critical finding mentioning DDP, not two. -/
theorem C6_ddp_dedup (t : String)
    (hphrase : (matchFirst ddpPhrasePat t.data).isSome = true) :
    ((ddpPhraseFlag ∈ detectIncoterms t) ↔
      ¬ ∃ f ∈ incotermLoopFlags t, extractedHasDDP f = true) ∧
    ((scanBoundary (incoTermAt "DDP") none (t.data.map upChar)).isSome = true →
      ((detectIncoterms t).filter criticalDDP).length = 1) := by
  constructor
  · constructor
    · intro hmem hex
      obtain ⟨f, hf, hdd⟩ := hex
      have hany : (incotermLoopFlags t).any extractedHasDDP = true :=
        List.any_eq_true.mpr ⟨f, hf, hdd⟩
      have hout : detectIncoterms t = incotermLoopFlags t := by
        simp only [detectIncoterms]
        rw [if_neg]
        intro hc
        rw [hany] at hc
        exact hc.2 rfl
      rw [hout] at hmem
      exact incotermLoopFlags_titles _ hmem rfl
    · intro hnex
      have hanyf : ¬ ((incotermLoopFlags t).any extractedHasDDP = true) := by
        intro hany
        obtain ⟨f, hf, hdd⟩ := List.any_eq_true.mp hany
        exact hnex ⟨f, hf, hdd⟩
      simp only [detectIncoterms]
      rw [if_pos ⟨hphrase, hanyf⟩]
      exact List.mem_append_right _ (List.mem_singleton_self _)
  · intro hddp
    obtain ⟨matched, hm⟩ := Option.isSome_iff_exists.mp hddp
    have hany : (incotermLoopFlags t).any extractedHasDDP = true :=
      List.any_eq_true.mpr
        ⟨mkIncotermFlag ddpEntry matched, ddp_flag_mem_loop hm,
          extractedHasDDP_of_match hm⟩
    have hout : detectIncoterms t = incotermLoopFlags t := by
      simp only [detectIncoterms]
      rw [if_neg]
      intro hc
      rw [hany] at hc
      exact hc.2 rfl
    rw [hout, incotermLoopFlags_filter_criticalDDP hm]
    rfl

/-- Witness for C6 at a concrete input: text containing both the literal
code DDP and the phrase "Delivered Duty Paid" yields exactly one critical
DDP finding, and the extra implied-DDP finding is suppressed. -/
theorem C6_ddp_dedup_witness :
    ((detectIncoterms c6Text).filter criticalDDP).length = 1 ∧
    ddpPhraseFlag ∉ detectIncoterms c6Text := by
  have h := C6_ddp_dedup c6Text (by decide)
  refine ⟨h.2 (by decide), fun hmem => h.1.mp hmem ?_⟩
  decide
